import Mathlib

/-!
# PII detection front end: batch navigation, playback channels, recording session, formatting

A shallow embedding of the React components under `Website_Frontend/src`.
Component state (the `useState` slots and `useRef` cells) becomes a record,
every event handler becomes a function from the record before the event to
the record after it, and the outcome of an asynchronous browser call
(`play()`, `getUserMedia`, `fetch`, the detection request) is an explicit
argument of the handler.  Effects become a function for the effect and one for
its cleanup; what the component does to the browser (calls on an audio element,
on `URL`, on a recorder or a stream) is recorded in the state.

Definitions come first, theorems after them.
-/

namespace PIIAudio

/-! ## JavaScript numbers -/

/-- A JavaScript number: `NaN`, the two infinities, or a finite value.  A finite
double is represented by the rational it denotes and arithmetic on finite values
is exact; the sign of zero is not tracked (every zero behaves as `+0`). -/
inductive JSNum where
  | nan
  | negInf
  | fin (q : ℚ)
  | posInf
  deriving DecidableEq

namespace JSNum

/-- The global `isNaN` on a number. -/
def isNaN : JSNum → Bool
  | nan => true
  | _ => false

/-- The global `isFinite` on a number. -/
def isFinite : JSNum → Bool
  | fin _ => true
  | _ => false

/-- The `ToBoolean` conversion used by `!x` and `if (x)`: zero and `NaN` are falsy. -/
def truthy : JSNum → Bool
  | nan => false
  | fin q => decide (q ≠ 0)
  | _ => true

/-- The comparison `x <= y`; false as soon as one side is `NaN`. -/
def le : JSNum → JSNum → Bool
  | nan, _ => false
  | _, nan => false
  | negInf, _ => true
  | _, posInf => true
  | fin a, fin b => decide (a ≤ b)
  | fin _, negInf => false
  | posInf, _ => false

/-- The comparison `x < y`; false as soon as one side is `NaN`. -/
def lt : JSNum → JSNum → Bool
  | nan, _ => false
  | _, nan => false
  | negInf, negInf => false
  | negInf, _ => true
  | posInf, _ => false
  | fin a, fin b => decide (a < b)
  | fin _, negInf => false
  | fin _, posInf => true

/-- The difference `x - y`. -/
def sub : JSNum → JSNum → JSNum
  | nan, _ => nan
  | _, nan => nan
  | fin a, fin b => fin (a - b)
  | fin _, posInf => negInf
  | fin _, negInf => posInf
  | posInf, posInf => nan
  | posInf, _ => posInf
  | negInf, negInf => nan
  | negInf, _ => negInf

/-- An infinity with the sign of `q` times the sign given by `pos`; `NaN` when `q = 0`. -/
def infTimes (pos : Bool) (q : ℚ) : JSNum :=
  if q = 0 then nan
  else if decide (0 < q) = pos then posInf else negInf

/-- The product `x * y`. -/
def mul : JSNum → JSNum → JSNum
  | nan, _ => nan
  | _, nan => nan
  | fin a, fin b => fin (a * b)
  | fin a, posInf => infTimes true a
  | fin a, negInf => infTimes false a
  | posInf, fin b => infTimes true b
  | negInf, fin b => infTimes false b
  | posInf, posInf => posInf
  | posInf, negInf => negInf
  | negInf, posInf => negInf
  | negInf, negInf => posInf

/-- The quotient `x / y`.  A zero divisor counts as `+0`. -/
def div : JSNum → JSNum → JSNum
  | nan, _ => nan
  | _, nan => nan
  | fin a, fin b =>
      if b = 0 then (if a = 0 then nan else if 0 < a then posInf else negInf)
      else fin (a / b)
  | fin _, posInf => fin 0
  | fin _, negInf => fin 0
  | posInf, fin b => if 0 ≤ b then posInf else negInf
  | negInf, fin b => if 0 ≤ b then negInf else posInf
  | posInf, posInf => nan
  | posInf, negInf => nan
  | negInf, posInf => nan
  | negInf, negInf => nan

/-- The function `Math.max` on two arguments: `NaN` if either is `NaN`. -/
def max : JSNum → JSNum → JSNum
  | nan, _ => nan
  | _, nan => nan
  | a, b => if le a b then b else a

/-- The function `Math.min` on two arguments: `NaN` if either is `NaN`. -/
def min : JSNum → JSNum → JSNum
  | nan, _ => nan
  | _, nan => nan
  | a, b => if le a b then a else b

end JSNum

/-! ## `App.jsx`: the batch of files and its results -/

/-- A file of the batch: a named byte blob. -/
structure AudioFile where
  name : String
  bytes : List Nat
  deriving DecidableEq

/-- The values of `currentStep`. -/
inductive Step where
  | landing
  | settings
  | main
  deriving DecidableEq

/-- The value of one property of a result record: data decoded from the
detection response, or the `file` property that `handleSettingsSubmit` adds
(`none` is `undefined`). -/
inductive Field where
  | json (text : String)
  | file (f : Option AudioFile)
  deriving DecidableEq

/-- A result record: a JavaScript object as its list of own properties. -/
abbrev ResultRecord := List (String × Field)

/-- Property read `o[k]`; `none` is `undefined`. -/
def getProp (o : ResultRecord) (k : String) : Option Field :=
  (o.find? (fun p => p.1 == k)).map (fun p => p.2)

/-- Property write on a fresh copy, as the object literal
`{ ...o, k: v }` does: an existing property `k` keeps its place and takes the
new value, otherwise `k` is appended. -/
def setProp (o : ResultRecord) (k : String) (v : Field) : ResultRecord :=
  if o.any (fun p => p.1 == k) then
    o.map (fun p => if p.1 == k then (p.1, v) else p)
  else o ++ [(k, v)]

/-- Array read `xs[i]` / `xs?.[i]` with a numeric index; `none` is `undefined`. -/
def arrayAt {α : Type} (xs : List α) (i : Int) : Option α :=
  if 0 ≤ i then xs[i.toNat]? else none

/-- The state slots of the `App` component. -/
structure App where
  currentStep : Step
  selectedFiles : List AudioFile
  selectedModel : String
  selectedCapabilities : List String
  results : Option (List ResultRecord)
  isProcessing : Bool
  currentFileIndex : Int
  isSidebarOpen : Bool
  deriving DecidableEq

/-- The initial values passed to `useState` in `App`. -/
def App.init : App :=
  { currentStep := .landing
    selectedFiles := []
    selectedModel := "deberta"
    selectedCapabilities := ["detection"]
    results := none
    isProcessing := false
    currentFileIndex := 0
    isSidebarOpen := false }

/-- Handler `handleFileSelect(files)`. -/
def handleFileSelect (s : App) (files : List AudioFile) : App :=
  { s with selectedFiles := files, currentStep := .settings, currentFileIndex := 0 }

/-- Handler `handleSettingsSubmit(model, capabilities)`.  `response` is the outcome of
the awaited request: `some rs` when it resolves with `response.data.results = rs`,
`none` when anything inside the `try` block throws. -/
def handleSettingsSubmit (s : App) (model : String) (capabilities : List String)
    (response : Option (List ResultRecord)) : App :=
  let s1 : App :=
    { s with selectedModel := model, selectedCapabilities := capabilities,
             isProcessing := true, currentStep := .main, currentFileIndex := 0 }
  match response with
  | some rs =>
      let processedResults :=
        rs.mapIdx (fun index result => setProp result "file" (.file s.selectedFiles[index]?))
      { s1 with results := some processedResults, isProcessing := false }
  | none => { s1 with isProcessing := false }

/-- Handler `handleNextFile()`. -/
def handleNextFile (s : App) : App :=
  if s.currentFileIndex < (s.selectedFiles.length : Int) - 1 then
    { s with currentFileIndex := s.currentFileIndex + 1 }
  else s

/-- Handler `handlePrevFile()`. -/
def handlePrevFile (s : App) : App :=
  if s.currentFileIndex > 0 then
    { s with currentFileIndex := s.currentFileIndex - 1 }
  else s

/-- Handler `handleUploadClick()`. -/
def handleUploadClick (s : App) : App :=
  { s with currentStep := .landing, selectedFiles := [], results := none }

/-- Value `currentResult` of `MainWindow`, from the props `App` passes down
(`transcriptionResults = results`). -/
def currentResult (s : App) : Option ResultRecord :=
  match s.results with
  | some rs => arrayAt rs s.currentFileIndex
  | none => none

/-- Value `currentAudioFile` of `MainWindow`, from the props `App` passes down
(`audioFiles = selectedFiles`). -/
def currentAudioFile (s : App) : Option AudioFile :=
  arrayAt s.selectedFiles s.currentFileIndex

/-! ## `MainWindow.jsx`: the two playback channels -/

/-- What the component does to an audio element, in program order. -/
inductive MediaCall where
  | play
  | pause
  | load
  | setCurrentTime (t : JSNum)
  | setSrc (url : String)
  deriving DecidableEq

/-- An `Audio` element as the component sees it: the properties it reads or
writes, and the record of the calls it made on the element (oldest first).
What the browser does on its own (advancing the position, reaching the end)
enters through the listeners below. -/
structure AudioElement where
  src : String
  currentTime : JSNum
  duration : JSNum
  paused : Bool
  ended : Bool
  calls : List MediaCall
  deriving DecidableEq

namespace AudioElement

/-- A newly constructed element, `new Audio()`. -/
def new : AudioElement :=
  { src := "", currentTime := .fin 0, duration := .nan, paused := true, ended := false,
    calls := [] }

/-- The call `el.play()` when the returned promise resolves. -/
def play (el : AudioElement) : AudioElement :=
  { el with paused := false, ended := false, calls := el.calls ++ [.play] }

/-- The call `el.play()` when the returned promise rejects: the element stays as it was. -/
def playRejected (el : AudioElement) : AudioElement :=
  { el with calls := el.calls ++ [.play] }

/-- The call `el.pause()`. -/
def pause (el : AudioElement) : AudioElement :=
  { el with paused := true, calls := el.calls ++ [.pause] }

/-- The assignment `el.currentTime = t`. -/
def setCurrentTime (el : AudioElement) (t : JSNum) : AudioElement :=
  { el with currentTime := t, calls := el.calls ++ [.setCurrentTime t] }

end AudioElement

/-- The state slots and ref cells of the `MainWindow` component. -/
structure MainWindow where
  isPlaying : Bool
  isRedactedPlaying : Bool
  currentTime : JSNum
  redactedCurrentTime : JSNum
  duration : JSNum
  redactedDuration : JSNum
  containerWidth : JSNum
  isRedactedLoading : Bool
  redactedError : Option String
  audioRef : Option AudioElement
  redactedAudioRef : Option AudioElement
  audioUrlRef : Option String
  redactedAudioUrlRef : Option String
  deriving DecidableEq

/-- The initial values of `useState` and `useRef` in `MainWindow`. -/
def MainWindow.init : MainWindow :=
  { isPlaying := false
    isRedactedPlaying := false
    currentTime := .fin 0
    redactedCurrentTime := .fin 0
    duration := .fin 0
    redactedDuration := .fin 0
    containerWidth := .fin 0
    isRedactedLoading := false
    redactedError := none
    audioRef := none
    redactedAudioRef := none
    audioUrlRef := none
    redactedAudioUrlRef := none }

/-- Handler `handlePlayPause()`.  `ok` tells whether the awaited media call (`pause()`
when playing, `play()` otherwise) returns normally; when it throws, the `catch`
block runs. -/
def handlePlayPause (s : MainWindow) (ok : Bool) : MainWindow :=
  match s.audioRef with
  | none => s
  | some el =>
      if s.isPlaying then
        if ok then { s with audioRef := some el.pause, isPlaying := !s.isPlaying }
        else { s with isPlaying := false }
      else
        let el1 := if el.ended then el.setCurrentTime (.fin 0) else el
        if ok then { s with audioRef := some el1.play, isPlaying := !s.isPlaying }
        else { s with audioRef := some el1.playRejected, isPlaying := false }

/-- Handler `handleRedactedPlayPause()`, with `ok` as in `handlePlayPause`. -/
def handleRedactedPlayPause (s : MainWindow) (ok : Bool) : MainWindow :=
  match s.redactedAudioRef with
  | none => s
  | some el =>
      if s.isRedactedPlaying then
        if ok then
          { s with redactedAudioRef := some el.pause, isRedactedPlaying := !s.isRedactedPlaying }
        else { s with isRedactedPlaying := false }
      else
        let el1 := if el.ended then el.setCurrentTime (.fin 0) else el
        if ok then
          { s with redactedAudioRef := some el1.play, isRedactedPlaying := !s.isRedactedPlaying }
        else { s with redactedAudioRef := some el1.playRejected, isRedactedPlaying := false }

/-- The `ended` listener of the original element, `() => setIsPlaying(false)`. -/
def onEnded (s : MainWindow) : MainWindow :=
  { s with isPlaying := false }

/-- The `ended` listener of the redacted element, `() => setIsRedactedPlaying(false)`. -/
def onRedactedEnded (s : MainWindow) : MainWindow :=
  { s with isRedactedPlaying := false }

/-- Handler `handleTimeUpdate()`. -/
def handleTimeUpdate (s : MainWindow) : MainWindow :=
  match s.audioRef with
  | some el => { s with currentTime := el.currentTime }
  | none => s

/-- Handler `handleLoadedMetadata()`. -/
def handleLoadedMetadata (s : MainWindow) : MainWindow :=
  match s.audioRef with
  | some el => { s with duration := el.duration }
  | none => s

/-- Handler `handleRedactedTimeUpdate()`. -/
def handleRedactedTimeUpdate (s : MainWindow) : MainWindow :=
  match s.redactedAudioRef with
  | some el => { s with redactedCurrentTime := el.currentTime }
  | none => s

/-- Handler `handleRedactedLoadedMetadata()`. -/
def handleRedactedLoadedMetadata (s : MainWindow) : MainWindow :=
  match s.redactedAudioRef with
  | some el => { s with redactedDuration := el.duration }
  | none => s

/-- Handler `handleProgressBarClick(e)`: `clientX` is `e.clientX`, `left` and `width`
are `bounds.left` and `bounds.width` of the clicked bar. -/
def handleProgressBarClick (s : MainWindow) (clientX left width : JSNum) : MainWindow :=
  match s.audioRef with
  | none => s
  | some el =>
      let x := clientX.sub left
      let percentage := x.div width
      let newTime := percentage.mul s.duration
      { s with audioRef := some (el.setCurrentTime newTime), currentTime := newTime }

/-- Handler `handleRedactedProgressBarClick(e)`, arguments as in `handleProgressBarClick`. -/
def handleRedactedProgressBarClick (s : MainWindow) (clientX left width : JSNum) :
    MainWindow :=
  match s.redactedAudioRef with
  | none => s
  | some el =>
      let x := clientX.sub left
      let percentage := x.div width
      let newTime := percentage.mul s.redactedDuration
      { s with redactedAudioRef := some (el.setCurrentTime newTime),
               redactedCurrentTime := newTime }

/-- Function `calculateProgressWidth()`. -/
def calculateProgressWidth (s : MainWindow) : JSNum :=
  if !s.duration.truthy || s.duration.isNaN || s.duration.le (.fin 0) then .fin 0
  else
    let percentage := (s.currentTime.div s.duration).mul (.fin 100)
    JSNum.min (JSNum.max percentage (.fin 0)) (.fin 100)

/-- Function `calculateRedactedProgressWidth()`. -/
def calculateRedactedProgressWidth (s : MainWindow) : JSNum :=
  if !s.redactedDuration.truthy || s.redactedDuration.isNaN
      || s.redactedDuration.le (.fin 0) then .fin 0
  else
    let percentage := (s.redactedCurrentTime.div s.redactedDuration).mul (.fin 100)
    JSNum.min (JSNum.max percentage (.fin 0)) (.fin 100)

/-! ## `MainWindow.jsx`: errors, restart, and the effects that attach sources -/

namespace AudioElement

/-- The assignment `el.src = url`. -/
def setSrc (el : AudioElement) (url : String) : AudioElement :=
  { el with src := url, calls := el.calls ++ [.setSrc url] }

/-- The call `el.load()`: the element starts over on its current source, paused at
position 0 with a duration that is unknown until metadata arrives. -/
def load (el : AudioElement) : AudioElement :=
  { el with currentTime := .fin 0, duration := .nan, paused := true, ended := false,
            calls := el.calls ++ [.load] }

end AudioElement

/-- Handler `handleError(error)`, the `error` listener of the original element. -/
def handleError (s : MainWindow) : MainWindow :=
  { s with isPlaying := false }

/-- Handler `handleRedactedError(error)`, the `error` listener of the redacted element. -/
def handleRedactedError (s : MainWindow) : MainWindow :=
  { s with isRedactedPlaying := false }

/-- Handler `handleRestart()`.  `ok` tells whether the awaited `play()` resolves;
when it rejects, the `catch` block runs. -/
def handleRestart (s : MainWindow) (ok : Bool) : MainWindow :=
  match s.audioRef with
  | none => s
  | some el =>
      let el1 := el.setCurrentTime (.fin 0)
      let s1 : MainWindow := { s with audioRef := some el1, currentTime := .fin 0 }
      if s.isPlaying then
        if ok then { s1 with audioRef := some el1.play }
        else { s1 with audioRef := some el1.playRejected, isPlaying := false }
      else s1

/-- Handler `handleRedactedRestart()`, with `ok` as in `handleRestart`. -/
def handleRedactedRestart (s : MainWindow) (ok : Bool) : MainWindow :=
  match s.redactedAudioRef with
  | none => s
  | some el =>
      let el1 := el.setCurrentTime (.fin 0)
      let s1 : MainWindow :=
        { s with redactedAudioRef := some el1, redactedCurrentTime := .fin 0 }
      if s.isRedactedPlaying then
        if ok then { s1 with redactedAudioRef := some el1.play }
        else { s1 with redactedAudioRef := some el1.playRejected, isRedactedPlaying := false }
      else s1

/-- A call on the browser's `URL` object. -/
inductive UrlCall where
  | create (url : String)
  | revoke (url : String)
  deriving DecidableEq

/-- The object URLs that a sequence of `URL` calls leaves unrevoked, oldest first. -/
def liveUrls (calls : List UrlCall) : List String :=
  calls.foldl
    (fun live c =>
      match c with
      | .create u => live ++ [u]
      | .revoke u => live.erase u)
    []

/-- The calls `create u, revoke u` for each `u` of a list, in order. -/
def urlPairs (us : List String) : List UrlCall :=
  us.flatMap (fun u => [.create u, .revoke u])

/-- JavaScript truthiness of a ref cell or property that holds a string or
nothing: `null`, `undefined` and the empty string are falsy. -/
def truthyString : Option String → Bool
  | some u => u != ""
  | none => false

/-- A mounted `MainWindow`: its state, the `URL` calls made so far by the code of
the original channel and by the code of the redacted channel (oldest first), and
the cleanup that React holds for the audio source effect, given by the `url` it
captured. -/
structure MainWindowView where
  win : MainWindow
  urlCalls : List UrlCall
  redactedUrlCalls : List UrlCall
  sourceCleanup : Option String
  deriving DecidableEq

/-- The effect "Initialize audio element": `audioRef.current = new Audio()`
(the listeners it registers are the handlers above). -/
def initAudioEffect (v : MainWindowView) : MainWindowView :=
  { v with win := { v.win with audioRef := some AudioElement.new } }

/-- The cleanup returned by the effect "Initialize audio element". -/
def initAudioCleanup (v : MainWindowView) : MainWindowView :=
  match v.win.audioRef with
  | none => v
  | some el =>
      let v1 : MainWindowView := { v with win := { v.win with audioRef := some el.pause } }
      if truthyString v.win.audioUrlRef then
        { v1 with urlCalls := v1.urlCalls ++ [.revoke (v.win.audioUrlRef.getD "")] }
      else v1

/-- The effect "Handle audio source changes" for the given `currentAudioFile`;
`url` is what `URL.createObjectURL` returns if it is called. -/
def audioSourceEffect (v : MainWindowView) (currentAudioFile : Option AudioFile)
    (url : String) : MainWindowView :=
  match currentAudioFile, v.win.audioRef with
  | some _, some el =>
      { v with urlCalls := v.urlCalls ++ [.create url]
               win := { v.win with audioRef := some (el.setSrc url).load }
               sourceCleanup := some url }
  | _, _ => { v with sourceCleanup := none }

/-- The cleanup returned by the effect "Handle audio source changes", with the
`url` it captured. -/
def audioSourceCleanup (v : MainWindowView) (url : String) : MainWindowView :=
  let v1 : MainWindowView :=
    match v.win.audioRef with
    | some el =>
        { v with win := { v.win with audioRef := some (el.pause.setSrc ""), isPlaying := false } }
    | none => v
  { v1 with urlCalls := v1.urlCalls ++ [.revoke url], sourceCleanup := none }

/-- The effect "Initialize redacted audio element". -/
def initRedactedEffect (v : MainWindowView) : MainWindowView :=
  { v with win := { v.win with redactedAudioRef := some AudioElement.new } }

/-- The cleanup returned by the effect "Initialize redacted audio element". -/
def initRedactedCleanup (v : MainWindowView) : MainWindowView :=
  match v.win.redactedAudioRef with
  | none => v
  | some el =>
      let v1 : MainWindowView :=
        { v with win := { v.win with redactedAudioRef := some el.pause } }
      if truthyString v.win.redactedAudioUrlRef then
        { v1 with redactedUrlCalls :=
            v1.redactedUrlCalls ++ [.revoke (v.win.redactedAudioUrlRef.getD "")] }
      else v1

/-- How the awaited part of `fetchRedactedAudio` ends: `fetch` (or
`response.blob()`) rejects with an error carrying `message`, the response is not
OK, or the blob arrives and `URL.createObjectURL` returns `audioUrl`. -/
inductive FetchOutcome where
  | rejected (message : String)
  | notOk
  | ok (audioUrl : String)
  deriving DecidableEq

/-- The guard of `fetchRedactedAudio`:
`currentResult?.redacted_audio_url && redactedAudioRef.current`. -/
def fetchGuard (v : MainWindowView) (redactedAudioUrl : Option String) : Bool :=
  truthyString redactedAudioUrl && v.win.redactedAudioRef.isSome

/-- The part of `fetchRedactedAudio` that runs before the first `await`, once the
guard has passed. -/
def fetchRedactedAudioStart (v : MainWindowView) : MainWindowView :=
  { v with win := { v.win with isRedactedLoading := true, redactedError := none } }

/-- The part of `fetchRedactedAudio` that runs after the awaits, for the given
outcome.  The function it returns on success is the result of an `async`
function and is never handed to React, so no cleanup is registered. -/
def fetchRedactedAudioResolve (v : MainWindowView) (outcome : FetchOutcome) : MainWindowView :=
  match outcome with
  | .rejected message =>
      { v with win := { v.win with redactedError := some message, isRedactedLoading := false } }
  | .notOk =>
      { v with win := { v.win with redactedError := some "Failed to fetch redacted audio",
                                   isRedactedLoading := false } }
  | .ok audioUrl =>
      let v1 : MainWindowView :=
        { v with redactedUrlCalls := v.redactedUrlCalls ++ [.create audioUrl]
                 win := { v.win with redactedAudioUrlRef := some audioUrl } }
      match v1.win.redactedAudioRef with
      | some el =>
          { v1 with win := { v1.win with redactedAudioRef := some (el.setSrc audioUrl).load,
                                         isRedactedLoading := false } }
      | none =>
          { v1 with win := { v1.win with
              redactedError := some "Cannot set properties of null (setting 'src')",
              isRedactedLoading := false } }

/-- The effect "Handle redacted audio source changes" run to completion for the
given `currentResult?.redacted_audio_url`. -/
def fetchRedactedAudio (v : MainWindowView) (redactedAudioUrl : Option String)
    (outcome : FetchOutcome) : MainWindowView :=
  if fetchGuard v redactedAudioUrl then
    fetchRedactedAudioResolve (fetchRedactedAudioStart v) outcome
  else v

/-- React re-running the audio source effect because `currentAudioFile` changed:
the cleanup it holds runs first, then the effect. -/
def changeAudioFile (v : MainWindowView) (currentAudioFile : Option AudioFile)
    (url : String) : MainWindowView :=
  let v1 := match v.sourceCleanup with
    | some u => audioSourceCleanup v u
    | none => v
  audioSourceEffect v1 currentAudioFile url

/-- What happens to a mounted `MainWindow` between mount and unmount, as far as
the two sources are concerned. -/
inductive ViewEvent where
  | audioFileChanged (currentAudioFile : Option AudioFile) (url : String)
  | redactedUrlChanged (redactedAudioUrl : Option String) (outcome : FetchOutcome)
  deriving DecidableEq

/-- One event on a mounted `MainWindow`. -/
def stepView (v : MainWindowView) : ViewEvent → MainWindowView
  | .audioFileChanged file url => changeAudioFile v file url
  | .redactedUrlChanged redactedAudioUrl outcome => fetchRedactedAudio v redactedAudioUrl outcome

/-- A sequence of events on a mounted `MainWindow`, oldest first. -/
def runView (v : MainWindowView) (events : List ViewEvent) : MainWindowView :=
  events.foldl stepView v

/-- Mounting `MainWindow` with the given `currentAudioFile`: the effects run in
the order they are declared (the fetch effect is the first `redactedUrlChanged`
event). -/
def mountView (currentAudioFile : Option AudioFile) (url : String) : MainWindowView :=
  initRedactedEffect
    (audioSourceEffect
      (initAudioEffect
        { win := MainWindow.init, urlCalls := [], redactedUrlCalls := [], sourceCleanup := none })
      currentAudioFile url)

/-- Unmounting `MainWindow`: every cleanup React holds runs once, in the order
of declaration. -/
def unmountView (v : MainWindowView) : MainWindowView :=
  let v1 := initAudioCleanup v
  let v2 := match v1.sourceCleanup with
    | some u => audioSourceCleanup v1 u
    | none => v1
  initRedactedCleanup v2

/-- The shape of the original channel's `URL` calls while mounted: complete
pairs, followed by the creation of the URL whose cleanup React holds, if any;
and the ref cell `audioUrlRef` is empty. -/
def OriginalUrlsPaired (v : MainWindowView) : Prop :=
  v.win.audioUrlRef = none ∧
  ∃ us : List String, v.urlCalls = urlPairs us ++ v.sourceCleanup.toList.map UrlCall.create

/-! ## `AudioRecorder.jsx`: the recording session -/

/-- A `Blob`: its bytes and its media type. -/
structure Blob where
  bytes : List Nat
  type : String
  deriving DecidableEq

/-- A `File` built by the recorder: name, media type and content. -/
structure RecordedFile where
  name : String
  type : String
  bytes : List Nat
  deriving DecidableEq

/-- A capture stream: for each of its tracks, the number of `stop()` calls the
track has received. -/
structure MediaStream where
  trackStops : List Nat
  deriving DecidableEq

/-- A `MediaRecorder`: the stream it was built on (its position in `streams`;
this is the `stream` its `onstop` closure captured), its options, and the
numbers of `start()` and `stop()` calls it has received. -/
structure MediaRecorder where
  stream : Nat
  mimeType : String
  startCalls : Nat
  stopCalls : Nat
  deriving DecidableEq

/-- A call of one of the props `onSave`, `onClose`. -/
inductive ParentCall where
  | onSave (files : List RecordedFile)
  | onClose
  deriving DecidableEq

/-- How `navigator.mediaDevices.getUserMedia` ends: with a stream of so many
tracks, or rejected because permission is denied or no device is available. -/
inductive MicOutcome where
  | granted (tracks : Nat)
  | permissionDenied
  | deviceUnavailable
  deriving DecidableEq

/-- The `AudioRecorder` component: its state slots, its ref cells, and the part
of the browser it acts on.  Streams and recorders are objects, kept in
`streams` and `recorders` in order of creation; a ref cell or closure that
holds one holds its position.  `micRequests` counts the `getUserMedia` calls,
`activeTimers` are the interval ids not yet cleared, `timersCreated` counts the
`setInterval` calls, `urlCalls` are the calls on `URL`, `parentCalls` the calls
of `onSave` / `onClose`, `consoleErrors` the `console.error` lines. -/
structure AudioRecorder where
  isRecording : Bool
  recordedBlob : Option Blob
  isPlaying : Bool
  duration : JSNum
  currentTime : JSNum
  recordingDuration : JSNum
  mediaRecorderRef : Option Nat
  audioChunksRef : List Blob
  audioRef : Option AudioElement
  timerRef : Option Nat
  startTimeRef : Option JSNum
  streamRef : Option Nat
  streams : List MediaStream
  recorders : List MediaRecorder
  micRequests : Nat
  activeTimers : List Nat
  timersCreated : Nat
  urlCalls : List UrlCall
  parentCalls : List ParentCall
  consoleErrors : List String
  deriving DecidableEq

namespace AudioRecorder

/-- A freshly created recorder component. -/
def init : AudioRecorder :=
  { isRecording := false
    recordedBlob := none
    isPlaying := false
    duration := .fin 0
    currentTime := .fin 0
    recordingDuration := .fin 0
    mediaRecorderRef := none
    audioChunksRef := []
    audioRef := none
    timerRef := none
    startTimeRef := none
    streamRef := none
    streams := []
    recorders := []
    micRequests := 0
    activeTimers := []
    timersCreated := 0
    urlCalls := []
    parentCalls := []
    consoleErrors := [] }

/-- The state slots of the component, in the order they are declared:
`isRecording`, `recordedBlob`, `isPlaying`, `duration`, `currentTime`,
`recordingDuration`. -/
def observable (s : AudioRecorder) : Bool × Option Blob × Bool × JSNum × JSNum × JSNum :=
  (s.isRecording, s.recordedBlob, s.isPlaying, s.duration, s.currentTime, s.recordingDuration)

/-- The call `mediaRecorderRef.current.stop()` on the recorder at position `r`. -/
def signalStop (recorders : List MediaRecorder) (r : Nat) : List MediaRecorder :=
  recorders.mapIdx (fun i rec => if i = r then { rec with stopCalls := rec.stopCalls + 1 } else rec)

/-- The loop `stream.getTracks().forEach(track => track.stop())` on the stream at
position `k`. -/
def stopTracks (streams : List MediaStream) (k : Nat) : List MediaStream :=
  streams.mapIdx (fun i st => if i = k then { trackStops := st.trackStops.map (· + 1) } else st)

/-- The statement `if (timerRef.current) clearInterval(timerRef.current)`. -/
def clearTimer (s : AudioRecorder) : List Nat :=
  match s.timerRef with
  | some t => if t ≠ 0 then s.activeTimers.erase t else s.activeTimers
  | none => s.activeTimers

/-- The `try` block of `startRecording()`: the state when the block is left and
the error thrown out of it, if any.  `mic` is the outcome of the awaited
`getUserMedia`, `now` the value of `Date.now()`. -/
def startRecordingTry (s : AudioRecorder) (mic : MicOutcome) (now : JSNum) :
    AudioRecorder × Option String :=
  let s0 : AudioRecorder := { s with micRequests := s.micRequests + 1 }
  match mic with
  | .permissionDenied => (s0, some "NotAllowedError")
  | .deviceUnavailable => (s0, some "NotFoundError")
  | .granted tracks =>
      let stream := s0.streams.length
      let mediaRecorder := s0.recorders.length
      ({ s0 with
          streams := s0.streams ++ [{ trackStops := List.replicate tracks 0 }]
          recorders := s0.recorders ++
            [{ stream := stream, mimeType := "audio/webm", startCalls := 1, stopCalls := 0 }]
          streamRef := some stream
          mediaRecorderRef := some mediaRecorder
          audioChunksRef := []
          startTimeRef := some now
          recordingDuration := .fin 0
          isRecording := true
          timerRef := some (s0.timersCreated + 1)
          activeTimers := s0.activeTimers ++ [s0.timersCreated + 1]
          timersCreated := s0.timersCreated + 1 }, none)

/-- Handler `startRecording()`: the `try` block, and the `catch` block that logs
the error. -/
def startRecording (s : AudioRecorder) (mic : MicOutcome) (now : JSNum) : AudioRecorder :=
  match startRecordingTry s mic now with
  | (s1, none) => s1
  | (s1, some e) =>
      { s1 with consoleErrors := s1.consoleErrors ++ ["Error accessing microphone: " ++ e] }

/-- The listener `mediaRecorder.ondataavailable` for an event carrying `data`. -/
def ondataavailable (s : AudioRecorder) (data : Blob) : AudioRecorder :=
  if data.bytes.length > 0 then { s with audioChunksRef := s.audioChunksRef ++ [data] } else s

/-- The listener `mediaRecorder.onstop` of the recorder at position `r`, after
its 200 ms wait; `now` is the value of `Date.now()`, `audioUrl` what
`URL.createObjectURL` returns. -/
def onstop (s : AudioRecorder) (r : Nat) (now : JSNum) (audioUrl : String) : AudioRecorder :=
  let audioBlob : Blob :=
    { bytes := s.audioChunksRef.flatMap (fun b => b.bytes), type := "audio/webm" }
  let finalDuration := (now.sub (s.startTimeRef.getD (.fin 0))).div (.fin 1000)
  { s with
      recordedBlob := some audioBlob
      urlCalls := s.urlCalls ++ [.create audioUrl]
      audioRef := some { AudioElement.new with src := audioUrl }
      duration := finalDuration
      recordingDuration := finalDuration
      streams := match s.recorders[r]? with
        | some rec => stopTracks s.streams rec.stream
        | none => s.streams }

/-- Handler `stopRecording()`. -/
def stopRecording (s : AudioRecorder) : AudioRecorder :=
  match s.mediaRecorderRef with
  | some r =>
      if s.isRecording then
        { s with recorders := signalStop s.recorders r
                 isRecording := false
                 activeTimers := clearTimer s }
      else s
  | none => s

/-- The statements of `startRecording()` that follow its `await`, with the
`catch` block, run on the state of the moment at which the promise of
`getUserMedia` settles with `mic`; the request itself was issued, and counted,
when the handler was called. -/
def startRecordingResume (s : AudioRecorder) (mic : MicOutcome) (now : JSNum) : AudioRecorder :=
  { s.startRecording mic now with micRequests := s.micRequests }

/-- Handler `handlePlayPause()` of the recorder.  `ok` tells whether the promise
of `play()` resolves; a rejection is logged by its `.catch`. -/
def handlePlayPause (s : AudioRecorder) (ok : Bool) : AudioRecorder :=
  match s.audioRef with
  | none => s
  | some el =>
      if s.isPlaying then
        { s with audioRef := some el.pause, isPlaying := !s.isPlaying }
      else
        let el1 := el.setCurrentTime (.fin 0)
        if ok then { s with audioRef := some el1.play, isPlaying := !s.isPlaying }
        else
          { s with audioRef := some el1.playRejected, isPlaying := !s.isPlaying
                   consoleErrors := s.consoleErrors ++ ["Error playing audio:"] }

/-- The click handler of the Delete button. -/
def deleteClick (s : AudioRecorder) : AudioRecorder :=
  { s with
      recordedBlob := none
      duration := .fin 0
      currentTime := .fin 0
      recordingDuration := .fin 0
      audioRef := match s.audioRef with
        | some el => some (el.pause.setSrc "")
        | none => none }

/-- Handler `handleSave()`. -/
def handleSave (s : AudioRecorder) : AudioRecorder :=
  match s.recordedBlob with
  | some recordedBlob =>
      let file : RecordedFile :=
        { name := "recording.webm", type := "audio/webm", bytes := recordedBlob.bytes }
      { s with parentCalls := s.parentCalls ++ [.onSave [file], .onClose] }
  | none => s

/-- A session that is capturing: recording started at time 1000 on a one-track
stream, and one chunk has arrived. -/
def capturing : AudioRecorder :=
  (init.startRecording (.granted 1) (.fin 1000)).ondataavailable ⟨[7, 7], "audio/webm"⟩

/-- A session whose finished take is being played back: `capturing`, then Stop,
the `onstop` listener at time 3000, and a successful Play. -/
def playingTake : AudioRecorder :=
  (capturing.stopRecording.onstop 0 (.fin 3000) "blob:take").handlePlayPause true

end AudioRecorder

/-! ## `MainWindow.jsx`: in-flight requests for redacted audio -/

/-- A `MainWindow` together with the requests for redacted audio whose awaits
have not finished: for each the path it asked for, oldest first.  `mounted`
tells whether the component is still mounted; React drops state updates made
after unmount, while ref cells and browser objects stay writable. -/
structure FetchView where
  view : MainWindowView
  mounted : Bool
  pending : List String
  deriving DecidableEq

/-- What can happen around the fetch effect: its dependency takes a new value
(`fetchStart`), the active file is switched (both source effects re-run),
the window is unmounted, or the awaits of the `i`-th request in flight finish. -/
inductive FetchEvent where
  | fetchStart (redactedAudioUrl : Option String)
  | fileSwitch (currentAudioFile : Option AudioFile) (url : String)
      (redactedAudioUrl : Option String)
  | unmount
  | fetchResolve (i : Nat) (outcome : FetchOutcome)
  deriving DecidableEq

/-- The effect "Handle redacted audio source changes" up to its first `await`:
when the guard passes, a request is in flight. -/
def startFetch (st : FetchView) (redactedAudioUrl : Option String) : FetchView :=
  if fetchGuard st.view redactedAudioUrl then
    { st with view := fetchRedactedAudioStart st.view,
              pending := st.pending ++ [redactedAudioUrl.getD ""] }
  else st

/-- One step of a `MainWindow` with requests in flight.  The source holds no
abort signal and no staleness flag, so no event removes a request from
`pending` except its own completion. -/
def stepFetch (st : FetchView) : FetchEvent → FetchView
  | .fetchStart redactedAudioUrl => startFetch st redactedAudioUrl
  | .fileSwitch currentAudioFile url redactedAudioUrl =>
      startFetch { st with view := changeAudioFile st.view currentAudioFile url } redactedAudioUrl
  | .unmount => { st with view := unmountView st.view, mounted := false }
  | .fetchResolve i outcome =>
      match st.pending[i]? with
      | none => st
      | some _ =>
          let v := fetchRedactedAudioResolve st.view outcome
          { st with
              pending := st.pending.eraseIdx i
              view :=
                if st.mounted then v
                else { v with win := { v.win with
                        isRedactedLoading := st.view.win.isRedactedLoading,
                        redactedError := st.view.win.redactedError } } }

/-- A sequence of steps, oldest first. -/
def runFetch (st : FetchView) (events : List FetchEvent) : FetchView :=
  events.foldl stepFetch st

/-- A freshly mounted `MainWindow` with nothing in flight. -/
def mountFetch (currentAudioFile : Option AudioFile) (url : String) : FetchView :=
  { view := mountView currentAudioFile url, mounted := true, pending := [] }

/-! ## `MainWindow.jsx`: formatting -/

/-- The remainder `a % b` on finite numbers with `b` not zero: the sign follows
the dividend. -/
def jsRem (a b : ℚ) : ℚ :=
  a - b * (if 0 ≤ a / b then ⌊a / b⌋ else ⌈a / b⌉)

/-- The nearest integer to a rational, a tie going to the even neighbour. -/
def roundHalfEven (y : ℚ) : ℤ :=
  let f : ℤ := ⌊y⌋
  if y - f < 1 / 2 then f
  else if 1 / 2 < y - f then f + 1
  else if f % 2 = 0 then f else f + 1

/-- The spacing of the doubles around a positive `x`: `2^(e-52)` where
`2^e ≤ x < 2^(e+1)`, and `2^(-1074)` in the subnormal range. -/
def ulpAt (x : ℚ) : ℚ := (2 : ℚ) ^ (max (Int.log 2 x - 52) (-1074))

/-- The double nearest to a rational, ties to the even significand, as every
arithmetic operation on numbers rounds its exact result (for results below
`2^1024` in magnitude, where no overflow occurs). -/
def roundToDouble (x : ℚ) : ℚ :=
  if x = 0 then 0
  else if 0 < x then roundHalfEven (x / ulpAt x) * ulpAt x
  else -(roundHalfEven (-x / ulpAt (-x)) * ulpAt (-x))

/-- The candidate `s` for writing the double `n` as the digits of `s` followed by `z`
zeros: one of the two neighbours `⌊n / 10^z⌋`, `⌊n / 10^z⌋ + 1` for which
`s * 10^z` still rounds to `n`; the closer one if both do, the even one on a tie. -/
def decimalCandidate (n z : Nat) : Option Nat :=
  let lo := n / 10 ^ z
  let hi := lo + 1
  let okLo : Bool := lo ≠ 0 && roundToDouble ((lo * 10 ^ z : Nat) : ℚ) == (n : ℚ)
  let okHi : Bool := roundToDouble ((hi * 10 ^ z : Nat) : ℚ) == (n : ℚ)
  match okLo, okHi with
  | true, false => some lo
  | false, true => some hi
  | false, false => none
  | true, true =>
      if n - lo * 10 ^ z < hi * 10 ^ z - n then some lo
      else if hi * 10 ^ z - n < n - lo * 10 ^ z then some hi
      else if lo % 2 = 0 then some lo else some hi

/-- The shortest decimal that reads back as the double `n`: the pair `(s, z)` with
the most zeros `z` for which a candidate exists. -/
def shortestDecimal (n : Nat) : Nat × Nat :=
  let len := (Nat.toDigits 10 n).length
  match (List.range (len + 1)).reverse.findSome?
      (fun z => (decimalCandidate n z).map (fun s => (s, z))) with
  | some r => r
  | none => (n, 0)

/-- Method `Number.prototype.toString` on a double that is a non-negative integer.
Below `2^53` every integer is a double and prints with all its digits.  From
there on the shortest digits that read back as the same double are printed,
filled with zeros up to 21 digits in all, and in the exponent form `d.ddde+N`
beyond. -/
def natToString (n : Nat) : String :=
  if n < 2 ^ 53 then toString n
  else
    let (s, z) := shortestDecimal n
    let ds := Nat.toDigits 10 s
    if ds.length + z ≤ 21 then String.mk (ds ++ List.replicate z '0')
    else
      let mantissa :=
        match ds with
        | [] => ['0']
        | [d] => [d]
        | d :: rest => d :: '.' :: rest
      String.mk mantissa ++ "e+" ++ toString (ds.length + z - 1)

/-- Method `Number.prototype.toString` on an integer. -/
def integerToString (n : Int) : String :=
  if n < 0 then "-" ++ natToString n.natAbs else natToString n.toNat

/-- The method `s.padStart(n, c)` for a one-character pad `c`. -/
def padStart (s : String) (n : Nat) (c : Char) : String :=
  String.mk (List.replicate (n - s.length) c) ++ s

/-- Function `formatTime(time)` of `MainWindow`.  The quotient `time / 60` is rounded
to a double before `Math.floor`; the remainder `time % 60` of two doubles is
exact. -/
def formatTime (time : JSNum) : String :=
  if time.isNaN || !time.isFinite then "00:00"
  else
    match time with
    | .fin t =>
        let minutes : Int := ⌊roundToDouble (t / 60)⌋
        let seconds : Int := ⌊jsRem t 60⌋
        padStart (integerToString minutes) 2 '0' ++ ":" ++ padStart (integerToString seconds) 2 '0'
    | _ => "00:00"

/-- The pieces of `type.split("_")`, on the characters of `type`. -/
def splitUnderscore : List Char → List (List Char)
  | [] => [[]]
  | c :: cs =>
      if c = '_' then [] :: splitUnderscore cs
      else
        match splitUnderscore cs with
        | w :: ws => (c :: w) :: ws
        | [] => [[c]]

/-- The map callback of `formatEntityType`:
`word.charAt(0).toUpperCase() + word.slice(1).toLowerCase()`.  Case mapping is
the one of ASCII letters. -/
def capitalizeWord : List Char → List Char
  | [] => []
  | c :: cs => c.toUpper :: cs.map Char.toLower

/-- Function `formatEntityType(type)`. -/
def formatEntityType (type : String) : String :=
  String.mk (List.intercalate [' '] ((splitUnderscore type.toList).map capitalizeWord))

/-- The reading of `formatEntityType` character by character: an underscore
becomes a space, the first character of a word is upper-cased, every other
character lower-cased; `atWordStart` tells whether a word starts here. -/
def capitalizeChars (atWordStart : Bool) : List Char → List Char
  | [] => []
  | c :: cs =>
      if c = '_' then ' ' :: capitalizeChars true cs
      else (if atWordStart then c.toUpper else c.toLower) :: capitalizeChars false cs

/-- An entity of a detection result: the two properties the window reads. -/
structure Entity where
  entity_type : String
  word : String
  deriving DecidableEq

/-- The decimal digits `0`..`9` of a string, in order:
`s.replace(/[^0-9]/g, "")`. -/
def digitsOf (s : String) : List Char :=
  s.toList.filter Char.isDigit

/-- Function `formatEntityValue(entity)`. -/
def formatEntityValue (entity : Entity) : String :=
  if entity.entity_type == "PHONE-NO" then
    let phone := digitsOf entity.word
    if phone.length == 10 then
      String.mk (phone.take 3 ++ ['-'] ++ (phone.drop 3).take 3 ++ ['-'] ++ phone.drop 6)
    else entity.word
  else entity.word

/-- The property names every plain object inherits from `Object.prototype`:
reading one of them on `{}` yields a function or object, which is truthy and
has no `push`. -/
def objectPrototypeKeys : List String :=
  ["constructor", "__defineGetter__", "__defineSetter__", "hasOwnProperty",
   "__lookupGetter__", "__lookupSetter__", "isPrototypeOf", "propertyIsEnumerable",
   "toString", "valueOf", "__proto__", "toLocaleString"]

/-- The accumulator of `groupedEntities`: the own properties of the object, each
an array of entities, in order of creation. -/
abbrev EntityGroups := List (String × List Entity)

/-- The reducer of `groupedEntities`; `none` is the `TypeError` thrown by
`acc[type].push` when `acc[type]` is an inherited property. -/
def groupStep (acc : EntityGroups) (entity : Entity) : Option EntityGroups :=
  let type := entity.entity_type
  if acc.any (fun g => g.1 == type) then
    some (acc.map (fun g => if g.1 == type then (g.1, g.2 ++ [entity]) else g))
  else if objectPrototypeKeys.contains type then none
  else some (acc ++ [(type, [entity])])

/-- Value `groupedEntities` for `currentResult?.entities` (`none` is
`undefined`); the result `none` is a thrown `TypeError`. -/
def groupedEntities (entities : Option (List Entity)) : Option EntityGroups :=
  match entities with
  | none => some []
  | some es => es.foldlM groupStep []

/-- What it means for `acc` to be the grouping of the entities `p` by type: the
keys are distinct, the group under a key is the non-empty list of the entities
of `p` with that type, in their order in `p`, every entity of `p` has its type
among the keys, and the group sizes add up to the length of `p`. -/
def GroupsOf (p : List Entity) (acc : EntityGroups) : Prop :=
  (acc.map Prod.fst).Nodup ∧
  (∀ k grp, (k, grp) ∈ acc → grp = p.filter (fun e => e.entity_type == k) ∧ grp ≠ []) ∧
  (∀ e ∈ p, ∃ grp, (e.entity_type, grp) ∈ acc) ∧
  (acc.map (fun g => g.2.length)).sum = p.length

/-! ## `AudioRecorder.jsx`: the effect keyed on `isRecording` -/

namespace AudioRecorder

/-- The cleanup returned by the effect with dependency `[isRecording]`;
`isRecording` is the value its closure captured, that of the render in which
the effect ran.  React runs it when `isRecording` has changed and at unmount. -/
def effectCleanup (s : AudioRecorder) (isRecording : Bool) : AudioRecorder :=
  { s with
      activeTimers := clearTimer s
      recorders := match s.mediaRecorderRef with
        | some r => if isRecording then signalStop s.recorders r else s.recorders
        | none => s.recorders
      audioRef := match s.audioRef with
        | some el => some (el.pause.setSrc "")
        | none => none
      recordingDuration := .fin 0
      duration := .fin 0
      currentTime := .fin 0 }

/-- The callback of the interval started by `startRecording`; `now` is the value
of `Date.now()`. -/
def timerTick (s : AudioRecorder) (now : JSNum) : AudioRecorder :=
  { s with recordingDuration := (now.sub (s.startTimeRef.getD (.fin 0))).div (.fin 1000) }

/-- A session right after a successful `startRecording` on a fresh recorder, at
time 1000 with a one-track stream. -/
def started : AudioRecorder :=
  init.startRecording (.granted 1) (.fin 1000)

/-- A session with one finished take: `started`, the re-render that follows the
start, one chunk, Stop, the re-render that follows the stop, and the `onstop`
listener at time 3000. -/
def finishedTake : AudioRecorder :=
  ((((started.effectCleanup false).ondataavailable ⟨[7, 7], "audio/webm"⟩).stopRecording
    ).effectCleanup true).onstop 0 (.fin 3000) "blob:take"

end AudioRecorder

/-- The recorder component together with the number of `getUserMedia` promises
that have been requested by `startRecording` and have not settled yet. -/
structure RecorderSession where
  recorder : AudioRecorder
  awaitingMic : Nat
  deriving DecidableEq

namespace RecorderSession

/-- A click on the record button, `onClick={isRecording ? stopRecording : startRecording}`.
The button is rendered only while `recordedBlob` is null.  `isRecording` is read
when the click happens: if it is set the handler is `stopRecording`, otherwise
`startRecording` is called and runs up to its `await`, which issues the request. -/
def recordClick (st : RecorderSession) : RecorderSession :=
  match st.recorder.recordedBlob with
  | some _ => st
  | none =>
      if st.recorder.isRecording then { st with recorder := st.recorder.stopRecording }
      else
        { recorder := { st.recorder with micRequests := st.recorder.micRequests + 1 }
          awaitingMic := st.awaitingMic + 1 }

/-- One of the awaited promises of `getUserMedia` settles with `mic` at time `now`:
the rest of that call of `startRecording` runs, on the state of this moment. -/
def micSettles (st : RecorderSession) (mic : MicOutcome) (now : JSNum) : RecorderSession :=
  if st.awaitingMic = 0 then st
  else
    { recorder := st.recorder.startRecordingResume mic now
      awaitingMic := st.awaitingMic - 1 }

/-- A freshly mounted recorder. -/
def init : RecorderSession :=
  { recorder := AudioRecorder.init, awaitingMic := 0 }

/-- Two clicks on Start Recording before the microphone answers. -/
def clickedTwice : RecorderSession :=
  init.recordClick.recordClick

/-- The first request of `clickedTwice` is granted at time 1000 with a one-track
stream, and one chunk arrives: the session is capturing. -/
def firstGranted : RecorderSession :=
  { clickedTwice.micSettles (.granted 1) (.fin 1000) with
      recorder := (clickedTwice.micSettles (.granted 1) (.fin 1000)).recorder.ondataavailable
        ⟨[7, 7], "audio/webm"⟩ }

/-- The second request is granted at time 1500, before React has run the cleanup
of the effect keyed on `isRecording`. -/
def secondGranted : RecorderSession :=
  firstGranted.micSettles (.granted 1) (.fin 1500)

/-- The take of `secondGranted` is finished: the cleanup of the render that
followed the start, a click on Stop Recording, the cleanup of the render that
followed the stop, and the `onstop` listener of the stopped recorder at time 3000. -/
def finishedAfterDoubleStart : AudioRecorder :=
  ((({ secondGranted with recorder := secondGranted.recorder.effectCleanup false }
      : RecorderSession).recordClick.recorder).effectCleanup true).onstop 1 (.fin 3000) "blob:take"

/-- The same clicks with the cleanup of the first start run before the second
request is granted. -/
def finishedAfterDoubleStartEarlyCleanup : AudioRecorder :=
  ((({ firstGranted with recorder := firstGranted.recorder.effectCleanup false }
      : RecorderSession).micSettles (.granted 1) (.fin 1500)).recordClick.recorder.effectCleanup
    true).onstop 1 (.fin 3000) "blob:take"

end RecorderSession

/-! ## `SettingsPage.jsx` -/

/-- The state slots of `SettingsPage`. -/
structure SettingsPage where
  selectedModel : String
  selectedCapability : String
  deriving DecidableEq

namespace SettingsPage

/-- The initial state for the props `initialModel` and `initialCapabilities`. -/
def init (initialModel : String) (initialCapabilities : List String) : SettingsPage :=
  { selectedModel := initialModel
    selectedCapability :=
      if initialCapabilities.contains "redaction" then "redaction" else "detection" }

/-- Handler `handleSubmit()`: the arguments it passes to `onSubmit`. -/
def handleSubmit (s : SettingsPage) : String × List String :=
  let capabilities :=
    if s.selectedCapability == "redaction" then ["detection", "redaction"] else ["detection"]
  (s.selectedModel, capabilities)

end SettingsPage

/-! ## `App.jsx`: the screens and the handlers bound on each -/

/-- Handler `handleSettingsClick()`. -/
def handleSettingsClick (s : App) : App :=
  if s.selectedFiles.length > 0 then { s with currentStep := .settings } else s

/-- Handler `handleSettingsClose()`; `isMobile` is the value of `useMediaQuery`. -/
def handleSettingsClose (s : App) (isMobile : Bool) : App :=
  if isMobile then { s with currentStep := .main } else s

/-- Handler `handleSidebarToggle()`. -/
def handleSidebarToggle (s : App) : App :=
  { s with isSidebarOpen := !s.isSidebarOpen }

/-- Handler `handleSidebarClose()`. -/
def handleSidebarClose (s : App) : App :=
  { s with isSidebarOpen := false }

/-- The statements of `handleSettingsSubmit` before its `await`. -/
def handleSettingsSubmitStart (s : App) (model : String) (capabilities : List String) : App :=
  { s with selectedModel := model, selectedCapabilities := capabilities,
           isProcessing := true, currentStep := .main, currentFileIndex := 0 }

/-- The statements of `handleSettingsSubmit` after its `await`, run on the state of that
moment: `selectedFiles` is the list the closure captured when the handler was called,
`response` the outcome of the request (`none` when the `try` block throws). -/
def handleSettingsSubmitResolve (s : App) (selectedFiles : List AudioFile)
    (response : Option (List ResultRecord)) : App :=
  match response with
  | some rs =>
      let processedResults :=
        rs.mapIdx (fun index result => setProp result "file" (.file selectedFiles[index]?))
      { s with results := some processedResults, isProcessing := false }
  | none => { s with isProcessing := false }

/-- The `App` component together with the requests of `handleSettingsSubmit` that have not
been answered yet, each with the `selectedFiles` its closure captured. -/
structure AppSession where
  app : App
  pending : List (List AudioFile)
  deriving DecidableEq

/-- What can happen to a mounted `App`: a call of one of its handlers by the
component it is passed to, or the answer to a pending request. -/
inductive AppEvent where
  | fileSelect (files : List AudioFile)
  | settingsSubmit (model : String) (capabilities : List String)
  | responseArrives (i : Nat) (response : Option (List ResultRecord))
  | nextFile
  | prevFile
  | uploadClick (isMobile : Bool)
  | settingsClick (isMobile : Bool)
  | settingsClose (isMobile : Bool)
  | sidebarToggle
  | sidebarClose

/-- Whether the event can happen in a state.  `renderContent` mounts `LandingPage`
(which calls `onFileSelect`) only at step `landing`, `SettingsPage` only at step
`settings`, and `Sidebar` and `MainWindow` only at step `main`; the Upload and
Settings buttons of `Sidebar` carry `disabled={isProcessing}`. -/
def AppEvent.enabled (st : AppSession) : AppEvent → Bool
  | .fileSelect _ => st.app.currentStep == .landing
  | .settingsSubmit _ _ => st.app.currentStep == .settings
  | .responseArrives i _ => decide (i < st.pending.length)
  | .nextFile => st.app.currentStep == .main
  | .prevFile => st.app.currentStep == .main
  | .uploadClick _ => st.app.currentStep == .main && !st.app.isProcessing
  | .settingsClick _ => st.app.currentStep == .main && !st.app.isProcessing
  | .settingsClose _ => st.app.currentStep == .settings
  | .sidebarToggle => st.app.currentStep == .main
  | .sidebarClose => st.app.currentStep == .main

/-- The state after an enabled event.  The Upload and Settings buttons of `Sidebar`
call `onClose()` after their handler when `isMobile` holds. -/
def AppEvent.apply (st : AppSession) : AppEvent → AppSession
  | .fileSelect files => { st with app := handleFileSelect st.app files }
  | .settingsSubmit model capabilities =>
      { app := handleSettingsSubmitStart st.app model capabilities
        pending := st.pending ++ [st.app.selectedFiles] }
  | .responseArrives i response =>
      { app := handleSettingsSubmitResolve st.app (st.pending.getD i []) response
        pending := st.pending.eraseIdx i }
  | .nextFile => { st with app := handleNextFile st.app }
  | .prevFile => { st with app := handlePrevFile st.app }
  | .uploadClick isMobile =>
      let s1 := handleUploadClick st.app
      { st with app := if isMobile then handleSidebarClose s1 else s1 }
  | .settingsClick isMobile =>
      let s1 := handleSettingsClick st.app
      { st with app := if isMobile then handleSidebarClose s1 else s1 }
  | .settingsClose isMobile => { st with app := handleSettingsClose st.app isMobile }
  | .sidebarToggle => { st with app := handleSidebarToggle st.app }
  | .sidebarClose => { st with app := handleSidebarClose st.app }

/-- One step of `App`: an event that is not enabled cannot happen and leaves the
state as it is. -/
def stepApp (st : AppSession) (e : AppEvent) : AppSession :=
  if e.enabled st then e.apply st else st

/-- The state of a freshly mounted `App` after a sequence of events. -/
def runApp (events : List AppEvent) : AppSession :=
  events.foldl stepApp { app := App.init, pending := [] }

/-- The invariant of `App`: the landing page is shown only without results, at most
one request is pending, and while one is pending the main screen is shown with
`isProcessing` set. -/
def AppInvariant (st : AppSession) : Prop :=
  (st.app.currentStep = .landing → st.app.results = none) ∧
  st.pending.length ≤ 1 ∧
  (st.pending ≠ [] → st.app.currentStep = .main ∧ st.app.isProcessing = true)

/-! # Theorems -/

/-! ## Objects and arrays -/

/-- Property read on an object with a first property. -/
theorem getProp_cons (p : String × Field) (o : ResultRecord) (k : String) :
    getProp (p :: o) k = if p.1 = k then some p.2 else getProp o k := by
  by_cases h : p.1 = k <;> simp [getProp, List.find?_cons, h]

/-- Property read on the empty object. -/
theorem getProp_nil (k : String) : getProp [] k = none := rfl

/-- Overwriting `k` in place leaves every other property as it was. -/
theorem getProp_overwrite_other (o : ResultRecord) (k k2 : String) (v : Field) (hk : k2 ≠ k) :
    getProp (o.map (fun p => if p.1 == k then (p.1, v) else p)) k2 = getProp o k2 := by
  induction o with
  | nil => rfl
  | cons p o ih =>
    rw [List.map_cons, getProp_cons, getProp_cons, ih]
    by_cases hp : p.1 = k
    · have hp2 : ¬ p.1 = k2 := fun h => hk (h.symm.trans hp)
      simp [hp, hp2, Ne.symm hk]
    · simp [hp]

/-- Overwriting `k` in place, when present, makes it read as the new value. -/
theorem getProp_overwrite_same (o : ResultRecord) (k : String) (v : Field)
    (h : o.any (fun p => p.1 == k) = true) :
    getProp (o.map (fun p => if p.1 == k then (p.1, v) else p)) k = some v := by
  induction o with
  | nil => simp at h
  | cons p o ih =>
    rw [List.map_cons, getProp_cons]
    by_cases hp : p.1 = k
    · simp [hp]
    · have h2 : o.any (fun p => p.1 == k) = true := by
        simpa [List.any_cons, hp] using h
      have h3 := ih h2
      simpa [hp] using h3

/-- Appending `k` leaves every other property as it was. -/
theorem getProp_append_other (o : ResultRecord) (k k2 : String) (v : Field) (hk : k2 ≠ k) :
    getProp (o ++ [(k, v)]) k2 = getProp o k2 := by
  induction o with
  | nil => simp [getProp_cons, getProp_nil, Ne.symm hk]
  | cons p o ih => rw [List.cons_append, getProp_cons, getProp_cons, ih]

/-- Appending `k`, when absent, makes it read as the new value. -/
theorem getProp_append_same (o : ResultRecord) (k : String) (v : Field)
    (h : ¬ o.any (fun p => p.1 == k) = true) :
    getProp (o ++ [(k, v)]) k = some v := by
  induction o with
  | nil => simp [getProp_cons]
  | cons p o ih =>
    have hp : ¬ p.1 = k := by
      intro hp; apply h; simp [List.any_cons, hp]
    have h2 : ¬ o.any (fun p => p.1 == k) = true := by
      intro h2; apply h; simp only [List.any_cons, h2, Bool.or_true]
    rw [List.cons_append, getProp_cons, if_neg hp, ih h2]

/-- Reading back the property written by `setProp`. -/
theorem getProp_setProp_same (o : ResultRecord) (k : String) (v : Field) :
    getProp (setProp o k v) k = some v := by
  unfold setProp
  split
  · rename_i h; exact getProp_overwrite_same o k v h
  · rename_i h; exact getProp_append_same o k v h

/-- Every other property is the one of the copied object. -/
theorem getProp_setProp_other (o : ResultRecord) (k k2 : String) (v : Field) (hk : k2 ≠ k) :
    getProp (setProp o k v) k2 = getProp o k2 := by
  unfold setProp
  split
  · exact getProp_overwrite_other o k k2 v hk
  · exact getProp_append_other o k k2 v hk

/-- Array read at a natural-number index. -/
theorem arrayAt_natCast {α : Type} (xs : List α) (i : Nat) : arrayAt xs (i : Int) = xs[i]? := by
  simp [arrayAt]

/-- An array read that yields an element was made at a natural-number index. -/
theorem arrayAt_eq_some {α : Type} (xs : List α) (i : Int) (a : α) (h : arrayAt xs i = some a) :
    0 ≤ i ∧ xs[i.toNat]? = some a := by
  unfold arrayAt at h
  split at h
  · exact ⟨by assumption, h⟩
  · cases h

/-! ## Properties of batch navigation -/

/-- C1: for a batch of `n ≥ 1` files and an index `i` with `0 ≤ i ≤ n - 1`,
the index after `handleNextFile` and the index after `handlePrevFile` are both
in `[0, n - 1]` (the batch itself is untouched); at `i = n - 1` `handleNextFile`
changes nothing and at `i = 0` `handlePrevFile` changes nothing. -/
theorem nav_index_stays_in_bounds (s : App)
    (_hn : 1 ≤ s.selectedFiles.length)
    (h0 : 0 ≤ s.currentFileIndex)
    (h1 : s.currentFileIndex ≤ (s.selectedFiles.length : Int) - 1) :
    (handleNextFile s).selectedFiles = s.selectedFiles ∧
    (handlePrevFile s).selectedFiles = s.selectedFiles ∧
    (0 ≤ (handleNextFile s).currentFileIndex ∧
      (handleNextFile s).currentFileIndex ≤ (s.selectedFiles.length : Int) - 1) ∧
    (0 ≤ (handlePrevFile s).currentFileIndex ∧
      (handlePrevFile s).currentFileIndex ≤ (s.selectedFiles.length : Int) - 1) ∧
    (s.currentFileIndex = (s.selectedFiles.length : Int) - 1 → handleNextFile s = s) ∧
    (s.currentFileIndex = 0 → handlePrevFile s = s) := by
  refine ⟨?_, ?_, ?_, ?_, ?_, ?_⟩
  · unfold handleNextFile; split <;> rfl
  · unfold handlePrevFile; split <;> rfl
  · unfold handleNextFile; split
    · constructor <;> simp only <;> omega
    · exact ⟨h0, h1⟩
  · unfold handlePrevFile; split
    · constructor <;> simp only <;> omega
    · exact ⟨h0, h1⟩
  · intro h; unfold handleNextFile; rw [if_neg (by omega)]
  · intro h; unfold handlePrevFile; rw [if_neg (by omega)]

/-- Witness for C1: a batch of two files with the second one active. -/
theorem nav_index_stays_in_bounds_witness :
    (handleNextFile { App.init with selectedFiles := [⟨"a.wav", []⟩, ⟨"b.wav", []⟩],
                                    currentFileIndex := 1 }).currentFileIndex = 1 ∧
    (handlePrevFile { App.init with selectedFiles := [⟨"a.wav", []⟩, ⟨"b.wav", []⟩],
                                    currentFileIndex := 1 }).currentFileIndex = 0 := by
  have h := nav_index_stays_in_bounds
    { App.init with selectedFiles := [⟨"a.wav", []⟩, ⟨"b.wav", []⟩], currentFileIndex := 1 }
    (by decide) (by decide) (by decide)
  refine ⟨?_, ?_⟩
  · have := h.2.2.2.2.1 (by decide); rw [this]
  · decide

/-- C2: `handleNextFile` moves the index from `i` to `i + 1` exactly when
`i < n - 1` and `handlePrevFile` moves it to `i - 1` exactly when `i > 0`,
otherwise the index stays `i`; so with three files selected (index 0), two
`next` reach 2, a third `next` stays at 2, and three `prev` pass through 1 and 0
and stay at 0. -/
theorem nav_step_exact (s : App) (a b c : AudioFile) :
    ((handleNextFile s).currentFileIndex =
        if s.currentFileIndex < (s.selectedFiles.length : Int) - 1
        then s.currentFileIndex + 1 else s.currentFileIndex) ∧
    ((handleNextFile s).currentFileIndex = s.currentFileIndex + 1 ↔
        s.currentFileIndex < (s.selectedFiles.length : Int) - 1) ∧
    ((handlePrevFile s).currentFileIndex =
        if s.currentFileIndex > 0 then s.currentFileIndex - 1 else s.currentFileIndex) ∧
    ((handlePrevFile s).currentFileIndex = s.currentFileIndex - 1 ↔ s.currentFileIndex > 0) ∧
    (handleFileSelect s [a, b, c]).currentFileIndex = 0 ∧
    (handleNextFile (handleFileSelect s [a, b, c])).currentFileIndex = 1 ∧
    (handleNextFile (handleNextFile (handleFileSelect s [a, b, c]))).currentFileIndex = 2 ∧
    handleNextFile (handleNextFile (handleNextFile (handleFileSelect s [a, b, c]))) =
      handleNextFile (handleNextFile (handleFileSelect s [a, b, c])) ∧
    (handlePrevFile (handleNextFile (handleNextFile
      (handleFileSelect s [a, b, c])))).currentFileIndex = 1 ∧
    (handlePrevFile (handlePrevFile (handleNextFile (handleNextFile
      (handleFileSelect s [a, b, c]))))).currentFileIndex = 0 ∧
    (handlePrevFile (handlePrevFile (handlePrevFile (handleNextFile (handleNextFile
      (handleFileSelect s [a, b, c])))))).currentFileIndex = 0 := by
  refine ⟨?_, ?_, ?_, ?_, ?_⟩
  · unfold handleNextFile; split <;> rfl
  · unfold handleNextFile; split
    · simp only [true_iff]; assumption
    · constructor
      · intro h; omega
      · intro h; contradiction
  · unfold handlePrevFile; split <;> rfl
  · unfold handlePrevFile; split
    · simp only [true_iff]; assumption
    · constructor
      · intro h; omega
      · intro h; contradiction
  · simp [handleNextFile, handlePrevFile, handleFileSelect]

/-- The atomic reading of `handleSettingsSubmit` is its first part followed at once
by its second part on the files of the call. -/
theorem handleSettingsSubmit_eq_start_resolve (s : App) (model : String)
    (capabilities : List String) (response : Option (List ResultRecord)) :
    handleSettingsSubmit s model capabilities response =
      handleSettingsSubmitResolve (handleSettingsSubmitStart s model capabilities)
        s.selectedFiles response := by
  cases response <;> rfl

/-- Every step of `App` keeps the invariant. -/
theorem stepApp_keeps_invariant (st : AppSession) (e : AppEvent) (h : AppInvariant st) :
    AppInvariant (stepApp st e) := by
  obtain ⟨h1, h2, h3⟩ := h
  unfold stepApp
  split
  case isFalse => exact ⟨h1, h2, h3⟩
  case isTrue hen =>
    cases e with
    | fileSelect files =>
        have hl : st.app.currentStep = .landing := by
          simpa [AppEvent.enabled] using hen
        have hp : st.pending = [] := by
          by_contra hne
          have := (h3 hne).1
          rw [hl] at this
          cases this
        refine ⟨?_, h2, ?_⟩
        · intro hc
          simp [AppEvent.apply, handleFileSelect] at hc
        · intro hne
          exact absurd hp hne
    | settingsSubmit model capabilities =>
        have hl : st.app.currentStep = .settings := by
          simpa [AppEvent.enabled] using hen
        have hp : st.pending = [] := by
          by_contra hne
          have := (h3 hne).1
          rw [hl] at this
          cases this
        refine ⟨?_, ?_, ?_⟩
        · intro hc
          simp [AppEvent.apply, handleSettingsSubmitStart] at hc
        · simp [AppEvent.apply, hp]
        · intro _
          simp [AppEvent.apply, handleSettingsSubmitStart]
    | responseArrives i response =>
        have hi : i < st.pending.length := by
          simpa [AppEvent.enabled] using hen
        have hne : st.pending ≠ [] := by
          intro h0
          rw [h0] at hi
          simp at hi
        have hm := (h3 hne).1
        have hi0 : i = 0 := by omega
        have hlen : st.pending.length = 1 := by omega
        have hp : st.pending.eraseIdx i = [] := by
          subst hi0
          match hq : st.pending, hlen with
          | [x], _ => rfl
        refine ⟨?_, ?_, ?_⟩
        · intro hc
          have hs : (handleSettingsSubmitResolve st.app (st.pending.getD i []) response).currentStep
              = st.app.currentStep := by
            cases response <;> rfl
          simp only [AppEvent.apply] at hc
          rw [hs, hm] at hc
          cases hc
        · simp [AppEvent.apply, hp]
        · intro hc
          simp [AppEvent.apply, hp] at hc
    | nextFile =>
        have hs : (handleNextFile st.app).currentStep = st.app.currentStep ∧
            (handleNextFile st.app).results = st.app.results ∧
            (handleNextFile st.app).isProcessing = st.app.isProcessing := by
          unfold handleNextFile
          split <;> exact ⟨rfl, rfl, rfl⟩
        simp only [AppEvent.apply]
        exact ⟨fun hc => hs.2.1 ▸ h1 (hs.1 ▸ hc), h2,
          fun hne => ⟨hs.1 ▸ (h3 hne).1, hs.2.2 ▸ (h3 hne).2⟩⟩
    | prevFile =>
        have hs : (handlePrevFile st.app).currentStep = st.app.currentStep ∧
            (handlePrevFile st.app).results = st.app.results ∧
            (handlePrevFile st.app).isProcessing = st.app.isProcessing := by
          unfold handlePrevFile
          split <;> exact ⟨rfl, rfl, rfl⟩
        simp only [AppEvent.apply]
        exact ⟨fun hc => hs.2.1 ▸ h1 (hs.1 ▸ hc), h2,
          fun hne => ⟨hs.1 ▸ (h3 hne).1, hs.2.2 ▸ (h3 hne).2⟩⟩
    | uploadClick isMobile =>
        have hl : st.app.currentStep = .main ∧ st.app.isProcessing = false := by
          simpa [AppEvent.enabled] using hen
        have hp : st.pending = [] := by
          by_contra hne
          have := (h3 hne).2
          rw [hl.2] at this
          cases this
        refine ⟨?_, h2, ?_⟩
        · intro _
          cases isMobile <;> rfl
        · intro hne
          exact absurd hp hne
    | settingsClick isMobile =>
        have hl : st.app.currentStep = .main ∧ st.app.isProcessing = false := by
          simpa [AppEvent.enabled] using hen
        have hp : st.pending = [] := by
          by_contra hne
          have := (h3 hne).2
          rw [hl.2] at this
          cases this
        refine ⟨?_, h2, ?_⟩
        · intro hc
          have hs : (handleSettingsClick st.app).currentStep ≠ .landing := by
            unfold handleSettingsClick
            split
            · simp
            · simp [hl.1]
          cases isMobile
          · exact absurd hc hs
          · exact absurd hc hs
        · intro hne
          exact absurd hp hne
    | settingsClose isMobile =>
        have hl : st.app.currentStep = .settings := by
          simpa [AppEvent.enabled] using hen
        have hp : st.pending = [] := by
          by_contra hne
          have := (h3 hne).1
          rw [hl] at this
          cases this
        refine ⟨?_, h2, ?_⟩
        · intro hc
          cases isMobile <;> simp [AppEvent.apply, handleSettingsClose, hl] at hc
        · intro hne
          exact absurd hp hne
    | sidebarToggle => exact ⟨h1, h2, h3⟩
    | sidebarClose => exact ⟨h1, h2, h3⟩

/-- Every state a mounted `App` reaches satisfies the invariant. -/
theorem runApp_invariant (events : List AppEvent) : AppInvariant (runApp events) := by
  have hgen : ∀ (es : List AppEvent) (st : AppSession), AppInvariant st →
      AppInvariant (es.foldl stepApp st) := by
    intro es
    induction es with
    | nil => intro st h; exact h
    | cons e es ih => intro st h; exact ih _ (stepApp_keeps_invariant st e h)
  refine hgen events _ ⟨?_, ?_, ?_⟩
  · intro _; rfl
  · simp
  · intro hc; exact absurd rfl hc

/-- C7: `handleFileSelect` is called by the landing page only.  In every state a
mounted `App` reaches through its handlers in which the landing page is shown,
and for every list of files, the call replaces the batch by exactly those files
in the same order, resets the current index to 0, and leaves the results null;
the batch and the index are set in this way from any state at all. -/
theorem fileSelect_sets_batch (events : List AppEvent) (files : List AudioFile)
    (hlanding : (runApp events).app.currentStep = .landing) :
    (runApp (events ++ [.fileSelect files])).app = handleFileSelect (runApp events).app files ∧
    (handleFileSelect (runApp events).app files).selectedFiles = files ∧
    (handleFileSelect (runApp events).app files).currentFileIndex = 0 ∧
    (handleFileSelect (runApp events).app files).results = none ∧
    (∀ s : App, (handleFileSelect s files).selectedFiles = files ∧
      (handleFileSelect s files).currentFileIndex = 0) := by
  refine ⟨?_, rfl, rfl, ?_, fun s => ⟨rfl, rfl⟩⟩
  · have hen : AppEvent.enabled (runApp events) (.fileSelect files) = true := by
      simp [AppEvent.enabled, hlanding]
    have hrun : runApp (events ++ [.fileSelect files]) =
        stepApp (runApp events) (.fileSelect files) := by
      unfold runApp
      rw [List.foldl_append]
      rfl
    have hstep : stepApp (runApp events) (.fileSelect files) =
        AppEvent.apply (runApp events) (.fileSelect files) := if_pos hen
    rw [hrun, hstep]
    rfl
  · exact (runApp_invariant events).1 hlanding

/-- C7 at a session that has results and then returns to the landing page: one file is
selected, processed and answered, Upload is clicked, and a new file is selected. -/
theorem fileSelect_sets_batch_witness :
    (runApp [.fileSelect [⟨"old.wav", [1]⟩], .settingsSubmit "deberta" ["detection"],
        .responseArrives 0 (some [[("transcript", .json "hello")]]),
        .uploadClick false]).app.currentStep = .landing ∧
    (runApp [.fileSelect [⟨"old.wav", [1]⟩], .settingsSubmit "deberta" ["detection"],
        .responseArrives 0 (some [[("transcript", .json "hello")]])]).app.results =
      some [[("transcript", .json "hello"), ("file", .file (some ⟨"old.wav", [1]⟩))]] ∧
    (handleFileSelect
      (runApp [.fileSelect [⟨"old.wav", [1]⟩], .settingsSubmit "deberta" ["detection"],
        .responseArrives 0 (some [[("transcript", .json "hello")]]),
        .uploadClick false]).app [⟨"new.wav", [2]⟩]).results = none :=
  ⟨by decide, by decide,
    (fileSelect_sets_batch
      [.fileSelect [⟨"old.wav", [1]⟩], .settingsSubmit "deberta" ["detection"],
        .responseArrives 0 (some [[("transcript", .json "hello")]]),
        .uploadClick false] [⟨"new.wav", [2]⟩] (by decide)).2.2.2.1⟩

/-- C8: when the detection request resolves with records `r_0 .. r_{k-1}`,
`handleSettingsSubmit` stores `k` records, and record `i` is `r_i` with its
`file` property set to `selectedFiles[i]` (every other property as in `r_i`);
so whenever the active result and the active audio file both exist at the
current index, the file attached to the active result is the active audio file. -/
theorem settingsSubmit_attaches_by_position (s : App) (model : String)
    (capabilities : List String) (rs : List ResultRecord) :
    ∃ out : List ResultRecord,
      (handleSettingsSubmit s model capabilities (some rs)).results = some out ∧
      (handleSettingsSubmit s model capabilities (some rs)).selectedFiles = s.selectedFiles ∧
      out.length = rs.length ∧
      (∀ i : Nat, ∀ r : ResultRecord, rs[i]? = some r →
        ∃ rec : ResultRecord, out[i]? = some rec ∧
          getProp rec "file" = some (.file s.selectedFiles[i]?) ∧
          ∀ k : String, k ≠ "file" → getProp rec k = getProp r k) ∧
      (∀ (j : Int) (rec : ResultRecord) (f : AudioFile),
        currentResult
          { handleSettingsSubmit s model capabilities (some rs) with currentFileIndex := j }
            = some rec →
        currentAudioFile
          { handleSettingsSubmit s model capabilities (some rs) with currentFileIndex := j }
            = some f →
        getProp rec "file" = some (.file (some f))) := by
  refine ⟨rs.mapIdx (fun index result => setProp result "file" (.file s.selectedFiles[index]?)),
    rfl, rfl, List.length_mapIdx, ?_, ?_⟩
  · intro i r hr
    refine ⟨setProp r "file" (.file s.selectedFiles[i]?), ?_, ?_, ?_⟩
    · rw [List.getElem?_mapIdx, hr]; rfl
    · exact getProp_setProp_same _ _ _
    · intro k hk; exact getProp_setProp_other _ _ _ _ hk
  · intro j rec f hrec hf
    have h1 := arrayAt_eq_some _ _ _ hrec
    have h2 := arrayAt_eq_some _ _ _ hf
    have h3 := h1.2
    have h4 : s.selectedFiles[j.toNat]? = some f := h2.2
    rw [List.getElem?_mapIdx] at h3
    cases hr : rs[j.toNat]? with
    | none => rw [hr] at h3; cases h3
    | some r =>
      rw [hr] at h3
      have h5 : setProp r "file" (.file s.selectedFiles[j.toNat]?) = rec := by
        simpa using h3
      rw [← h5, getProp_setProp_same, h4]

/-- Witness for C8: two files, a response with two records, second file active. -/
theorem settingsSubmit_attaches_by_position_witness :
    ∃ rec : ResultRecord,
      currentResult
        { handleSettingsSubmit
            { App.init with selectedFiles := [⟨"a.wav", [1]⟩, ⟨"b.wav", [2]⟩] }
            "deberta" ["detection"]
            (some [[("transcript", .json "one")], [("transcript", .json "two")]])
          with currentFileIndex := 1 } = some rec ∧
      getProp rec "file" = some (.file (some ⟨"b.wav", [2]⟩)) := by
  obtain ⟨_, _, _, _, _, h⟩ := settingsSubmit_attaches_by_position
    { App.init with selectedFiles := [⟨"a.wav", [1]⟩, ⟨"b.wav", [2]⟩] }
    "deberta" ["detection"]
    [[("transcript", .json "one")], [("transcript", .json "two")]]
  exact ⟨[("transcript", .json "two"), ("file", .file (some ⟨"b.wav", [2]⟩))],
    by decide, h 1 _ ⟨"b.wav", [2]⟩ (by decide) (by decide)⟩

/-! ## Properties of progress reporting and seeking -/

/-- C3: for a finite position and a duration that is zero, negative, `NaN`, or
infinite, `calculateProgressWidth` and `calculateRedactedProgressWidth` return
exactly 0, which is not `NaN`. -/
theorem progress_zero_without_duration (s : MainWindow) (p : ℚ) (d : JSNum)
    (hd : d = .nan ∨ d = .posInf ∨ d = .negInf ∨ ∃ q : ℚ, q ≤ 0 ∧ d = .fin q) :
    calculateProgressWidth { s with currentTime := .fin p, duration := d } = .fin 0 ∧
    calculateRedactedProgressWidth
      { s with redactedCurrentTime := .fin p, redactedDuration := d } = .fin 0 ∧
    (calculateProgressWidth { s with currentTime := .fin p, duration := d }).isNaN = false ∧
    (calculateRedactedProgressWidth
      { s with redactedCurrentTime := .fin p, redactedDuration := d }).isNaN = false := by
  have key : calculateProgressWidth { s with currentTime := .fin p, duration := d } = .fin 0 ∧
      calculateRedactedProgressWidth
        { s with redactedCurrentTime := .fin p, redactedDuration := d } = .fin 0 := by
    rcases hd with h | h | h | ⟨q, hq, h⟩
    · subst h
      constructor <;> simp [calculateProgressWidth, calculateRedactedProgressWidth, JSNum.truthy]
    · subst h
      constructor <;>
        simp [calculateProgressWidth, calculateRedactedProgressWidth, JSNum.truthy, JSNum.isNaN,
          JSNum.le, JSNum.div, JSNum.mul, JSNum.max, JSNum.min]
    · subst h
      constructor <;>
        simp [calculateProgressWidth, calculateRedactedProgressWidth, JSNum.truthy, JSNum.isNaN,
          JSNum.le]
    · subst h
      constructor <;>
        simp [calculateProgressWidth, calculateRedactedProgressWidth, JSNum.truthy, JSNum.isNaN,
          JSNum.le, hq]
  refine ⟨key.1, key.2, ?_, ?_⟩
  · rw [key.1]; rfl
  · rw [key.2]; rfl

/-- Witness for C3: position 3 with an infinite duration. -/
theorem progress_zero_without_duration_witness :
    calculateProgressWidth
      { MainWindow.init with currentTime := .fin 3, duration := .posInf } = .fin 0 :=
  (progress_zero_without_duration MainWindow.init 3 .posInf (Or.inr (Or.inl rfl))).1

/-- The clamped percentage for a finite position over a finite positive duration. -/
theorem clampPercent_fin (p d : ℚ) (hd : 0 < d) :
    JSNum.min (JSNum.max (((JSNum.fin p).div (.fin d)).mul (.fin 100)) (.fin 0)) (.fin 100)
      = .fin (100 * (max 0 (min 1 (p / d)))) := by
  have hd0 : d ≠ 0 := ne_of_gt hd
  simp only [JSNum.div, if_neg hd0, JSNum.mul]
  by_cases h0 : p / d * 100 ≤ 0
  · have h1 : p / d ≤ 0 := by linarith
    have h2 : min 1 (p / d) = p / d := min_eq_right (by linarith)
    have h3 : max 0 (p / d) = 0 := max_eq_left h1
    by_cases h4 : p / d * 100 = 0
    · simp [JSNum.max, JSNum.min, JSNum.le, h0, h4, h2, h3]
    · simp [JSNum.max, JSNum.min, JSNum.le, h0, h2, h3]
  · have h1 : 0 < p / d := by
      by_contra hc; apply h0; have : p / d ≤ 0 := not_lt.mp hc; linarith
    have h3 : ∀ x : ℚ, 0 < x → max 0 x = x := fun x hx => max_eq_right (le_of_lt hx)
    by_cases h5 : p / d * 100 ≤ 100
    · have h6 : p / d ≤ 1 := by linarith
      have h2 : min 1 (p / d) = p / d := min_eq_right h6
      simp [JSNum.max, JSNum.min, JSNum.le, h0, h5, h2, h3 _ h1, mul_comm]
    · have h6 : 1 < p / d := by
        by_contra hc; apply h5; have : p / d ≤ 1 := not_lt.mp hc; linarith
      have h2 : min 1 (p / d) = 1 := min_eq_left (le_of_lt h6)
      simp [JSNum.max, JSNum.min, JSNum.le, h0, h5, h2]

/-- C4: for a finite positive duration `d` and a finite position `p`, both
progress functions return `100 * clamp(p / d, 0, 1)`: a value in `[0, 100]`,
equal to `100 * p / d` when `0 ≤ p ≤ d`, to 0 when `p < 0` and to 100 when
`p > d`. -/
theorem progress_is_clamped_ratio (s : MainWindow) (p d : ℚ) (hd : 0 < d) :
    calculateProgressWidth { s with currentTime := .fin p, duration := .fin d }
      = .fin (100 * (max 0 (min 1 (p / d)))) ∧
    calculateRedactedProgressWidth
      { s with redactedCurrentTime := .fin p, redactedDuration := .fin d }
      = .fin (100 * (max 0 (min 1 (p / d)))) ∧
    0 ≤ 100 * (max 0 (min 1 (p / d))) ∧
    100 * (max 0 (min 1 (p / d))) ≤ 100 ∧
    (0 ≤ p → p ≤ d → 100 * (max 0 (min 1 (p / d))) = 100 * p / d) ∧
    (p < 0 → 100 * (max 0 (min 1 (p / d))) = 0) ∧
    (d < p → 100 * (max 0 (min 1 (p / d))) = 100) := by
  have hd0 : d ≠ 0 := ne_of_gt hd
  have hnle : ¬ d ≤ 0 := not_le.mpr hd
  refine ⟨?_, ?_, ?_, ?_, ?_, ?_, ?_⟩
  · have := clampPercent_fin p d hd
    simpa [calculateProgressWidth, JSNum.truthy, JSNum.isNaN, JSNum.le, hd0, hnle] using this
  · have := clampPercent_fin p d hd
    simpa [calculateRedactedProgressWidth, JSNum.truthy, JSNum.isNaN, JSNum.le, hd0, hnle]
      using this
  · have : (0 : ℚ) ≤ max 0 (min 1 (p / d)) := le_max_left _ _
    linarith
  · have : max 0 (min 1 (p / d)) ≤ 1 := max_le (by norm_num) (min_le_left _ _)
    linarith
  · intro h0 h1
    have h2 : 0 ≤ p / d := div_nonneg h0 (le_of_lt hd)
    have h3 : p / d ≤ 1 := (div_le_one hd).mpr h1
    rw [min_eq_right h3, max_eq_right h2]; ring
  · intro h0
    have h2 : p / d < 0 := div_neg_of_neg_of_pos h0 hd
    rw [min_eq_right (by linarith), max_eq_left (le_of_lt h2)]; ring
  · intro h1
    have h3 : 1 < p / d := (one_lt_div hd).mpr h1
    rw [min_eq_left (le_of_lt h3), max_eq_right (by norm_num)]; ring

/-- Witness for C4: position 5 over duration 20 gives 25 percent. -/
theorem progress_is_clamped_ratio_witness :
    calculateProgressWidth { MainWindow.init with currentTime := .fin 5, duration := .fin 20 }
      = .fin 25 := by
  have h := progress_is_clamped_ratio MainWindow.init 5 20 (by norm_num)
  rw [h.1, h.2.2.2.2.1 (by norm_num) (by norm_num)]
  norm_num

/-- The seek position for finite click coordinates, a non-zero bar width and a
finite duration. -/
theorem seekPosition_fin (clientX left width d : ℚ) (hw : width ≠ 0) :
    (((JSNum.fin clientX).sub (.fin left)).div (.fin width)).mul (.fin d)
      = .fin ((clientX - left) / width * d) := by
  simp [JSNum.sub, JSNum.div, JSNum.mul, hw]

/-- C5 fails as stated: a click at twice the bar width (fraction 2) on a
10-second channel makes both handlers assign position 20, outside `[0, 10]`,
to the element and to the reported current time; a click left of the bar
(fraction -1) gives -10. -/
theorem seek_out_of_range_not_clamped :
    (handleProgressBarClick
      { MainWindow.init with
          audioRef := some { AudioElement.new with src := "blob:a", duration := .fin 10 },
          duration := .fin 10 }
      (.fin 20) (.fin 0) (.fin 10)).currentTime = .fin 20 ∧
    (handleProgressBarClick
      { MainWindow.init with
          audioRef := some { AudioElement.new with src := "blob:a", duration := .fin 10 },
          duration := .fin 10 }
      (.fin 20) (.fin 0) (.fin 10)).audioRef.map (fun el => el.currentTime)
        = some (.fin 20) ∧
    (handleRedactedProgressBarClick
      { MainWindow.init with
          redactedAudioRef := some { AudioElement.new with src := "blob:r", duration := .fin 10 },
          redactedDuration := .fin 10 }
      (.fin (-10)) (.fin 0) (.fin 10)).redactedCurrentTime = .fin (-10) ∧
    JSNum.le (.fin 20) (.fin 10) = false ∧
    JSNum.le (.fin 0) (.fin (-10)) = false := by
  refine ⟨?_, ?_, ?_, ?_, ?_⟩
  · simp only [handleProgressBarClick, MainWindow.init, seekPosition_fin 20 0 10 10 (by norm_num)]
    norm_num
  · simp only [handleProgressBarClick, MainWindow.init, seekPosition_fin 20 0 10 10 (by norm_num),
      Option.map, AudioElement.setCurrentTime]
    norm_num
  · simp only [handleRedactedProgressBarClick, MainWindow.init,
      seekPosition_fin (-10) 0 10 10 (by norm_num)]
    norm_num
  · norm_num [JSNum.le]
  · norm_num [JSNum.le]

/-- C5, amended: for a click inside the bar, that is a seek fraction
`f = (clientX - left) / width` with `0 ≤ f ≤ 1`, and a known duration `d ≥ 0`,
the position that `handleProgressBarClick` and `handleRedactedProgressBarClick`
assign to the audio element and to the reported current time is `f * d` and
lies in `[0, d]`. -/
theorem seek_in_range_within_duration (s : MainWindow) (el : AudioElement)
    (clientX left width d : ℚ) (hw : 0 < width)
    (h0 : 0 ≤ (clientX - left) / width) (h1 : (clientX - left) / width ≤ 1) (hd : 0 ≤ d) :
    (handleProgressBarClick { s with audioRef := some el, duration := .fin d }
        (.fin clientX) (.fin left) (.fin width)).currentTime
      = .fin ((clientX - left) / width * d) ∧
    (handleProgressBarClick { s with audioRef := some el, duration := .fin d }
        (.fin clientX) (.fin left) (.fin width)).audioRef
      = some (el.setCurrentTime (.fin ((clientX - left) / width * d))) ∧
    (handleRedactedProgressBarClick { s with redactedAudioRef := some el, redactedDuration := .fin d }
        (.fin clientX) (.fin left) (.fin width)).redactedCurrentTime
      = .fin ((clientX - left) / width * d) ∧
    (handleRedactedProgressBarClick { s with redactedAudioRef := some el, redactedDuration := .fin d }
        (.fin clientX) (.fin left) (.fin width)).redactedAudioRef
      = some (el.setCurrentTime (.fin ((clientX - left) / width * d))) ∧
    (el.setCurrentTime (.fin ((clientX - left) / width * d))).currentTime
      = .fin ((clientX - left) / width * d) ∧
    0 ≤ (clientX - left) / width * d ∧
    (clientX - left) / width * d ≤ d := by
  have hw0 : width ≠ 0 := ne_of_gt hw
  refine ⟨?_, ?_, ?_, ?_, rfl, mul_nonneg h0 hd, ?_⟩
  · simp only [handleProgressBarClick, seekPosition_fin _ _ _ _ hw0]
  · simp only [handleProgressBarClick, seekPosition_fin _ _ _ _ hw0]
  · simp only [handleRedactedProgressBarClick, seekPosition_fin _ _ _ _ hw0]
  · simp only [handleRedactedProgressBarClick, seekPosition_fin _ _ _ _ hw0]
  · calc (clientX - left) / width * d ≤ 1 * d := mul_le_mul_of_nonneg_right h1 hd
      _ = d := one_mul d

/-- Witness for C5 (amended): a click a quarter into a 200-pixel bar on an
8-second channel. -/
theorem seek_in_range_within_duration_witness :
    (handleProgressBarClick
      { MainWindow.init with audioRef := some AudioElement.new, duration := .fin 8 }
      (.fin 150) (.fin 100) (.fin 200)).currentTime = .fin 2 := by
  have h := seek_in_range_within_duration MainWindow.init AudioElement.new 150 100 200 8
    (by norm_num) (by norm_num) (by norm_num) (by norm_num)
  rw [h.1]; norm_num

/-- C6: for a seek fraction `f = (clientX - left) / width` in `[0, 1]` and a
known duration `d`, `handleProgressBarClick` sets the element position and the
reported current time both to `f * d`; a click at fraction 0.5 on a 10-second
artifact gives position 5. -/
theorem seek_is_linear (s : MainWindow) (el : AudioElement)
    (clientX left width d : ℚ) (hw : width ≠ 0)
    (_h0 : 0 ≤ (clientX - left) / width) (_h1 : (clientX - left) / width ≤ 1) :
    (handleProgressBarClick { s with audioRef := some el, duration := .fin d }
        (.fin clientX) (.fin left) (.fin width)).currentTime
      = .fin ((clientX - left) / width * d) ∧
    (handleProgressBarClick { s with audioRef := some el, duration := .fin d }
        (.fin clientX) (.fin left) (.fin width)).audioRef.map (fun e => e.currentTime)
      = some (.fin ((clientX - left) / width * d)) ∧
    (handleProgressBarClick { s with audioRef := some el, duration := .fin 10 }
        (.fin 50) (.fin 0) (.fin 100)).currentTime = .fin 5 ∧
    (handleProgressBarClick { s with audioRef := some el, duration := .fin 10 }
        (.fin 50) (.fin 0) (.fin 100)).audioRef.map (fun e => e.currentTime) = some (.fin 5) := by
  refine ⟨?_, ?_, ?_, ?_⟩
  · simp only [handleProgressBarClick, seekPosition_fin _ _ _ _ hw]
  · simp only [handleProgressBarClick, seekPosition_fin _ _ _ _ hw, Option.map,
      AudioElement.setCurrentTime]
  · simp only [handleProgressBarClick, seekPosition_fin 50 0 100 10 (by norm_num)]
    norm_num
  · simp only [handleProgressBarClick, seekPosition_fin 50 0 100 10 (by norm_num), Option.map,
      AudioElement.setCurrentTime]
    norm_num

/-- Witness for C6: a click three quarters into a 400-pixel bar on a 12-second channel. -/
theorem seek_is_linear_witness :
    (handleProgressBarClick
      { MainWindow.init with audioRef := some AudioElement.new, duration := .fin 12 }
      (.fin 300) (.fin 0) (.fin 400)).currentTime = .fin 9 := by
  have h := seek_is_linear MainWindow.init AudioElement.new 300 0 400 12
    (by norm_num) (by norm_num) (by norm_num)
  rw [h.1]; norm_num

/-! ## Properties of the play/pause toggle -/

/-- C9: in both channels a toggle whose media call succeeds flips the playing
flag: when not playing it calls `play()` and sets the flag, when playing it
calls `pause()` and clears the flag, so two successful toggles in a row give
back the flag they started from; without an audio element the toggle changes
nothing, whether or not the media call would succeed. -/
theorem toggle_flips_playing_flag (s : MainWindow) (el : AudioElement) (ok : Bool) :
    ((handlePlayPause { s with audioRef := some el, isPlaying := false } true).isPlaying = true ∧
      ∃ el2, (handlePlayPause { s with audioRef := some el, isPlaying := false } true).audioRef
          = some el2 ∧ el2.calls.getLast? = some .play ∧ el2.paused = false) ∧
    ((handlePlayPause { s with audioRef := some el, isPlaying := true } true).isPlaying = false ∧
      (handlePlayPause { s with audioRef := some el, isPlaying := true } true).audioRef
          = some el.pause ∧
      el.pause.calls = el.calls ++ [.pause] ∧ el.pause.paused = true) ∧
    (handlePlayPause { s with audioRef := some el } true).isPlaying = !s.isPlaying ∧
    (handlePlayPause (handlePlayPause { s with audioRef := some el } true) true).isPlaying
      = s.isPlaying ∧
    handlePlayPause { s with audioRef := none } ok = { s with audioRef := none } ∧
    ((handleRedactedPlayPause
        { s with redactedAudioRef := some el, isRedactedPlaying := false } true).isRedactedPlaying
        = true ∧
      ∃ el2, (handleRedactedPlayPause
          { s with redactedAudioRef := some el, isRedactedPlaying := false } true).redactedAudioRef
          = some el2 ∧ el2.calls.getLast? = some .play ∧ el2.paused = false) ∧
    ((handleRedactedPlayPause
        { s with redactedAudioRef := some el, isRedactedPlaying := true } true).isRedactedPlaying
        = false ∧
      (handleRedactedPlayPause
        { s with redactedAudioRef := some el, isRedactedPlaying := true } true).redactedAudioRef
          = some el.pause) ∧
    (handleRedactedPlayPause { s with redactedAudioRef := some el } true).isRedactedPlaying
      = !s.isRedactedPlaying ∧
    (handleRedactedPlayPause
      (handleRedactedPlayPause { s with redactedAudioRef := some el } true) true).isRedactedPlaying
      = s.isRedactedPlaying ∧
    handleRedactedPlayPause { s with redactedAudioRef := none } ok
      = { s with redactedAudioRef := none } := by
  refine ⟨⟨rfl, ?_⟩, ⟨rfl, rfl, rfl, rfl⟩, ?_, ?_, rfl, ⟨rfl, ?_⟩, ⟨rfl, rfl⟩, ?_, ?_, rfl⟩
  · refine ⟨_, rfl, ?_, rfl⟩
    simp [AudioElement.play]
  · cases h : s.isPlaying <;> simp [handlePlayPause, h]
  · cases h : s.isPlaying <;> simp [handlePlayPause, h]
  · refine ⟨_, rfl, ?_, rfl⟩
    simp [AudioElement.play]
  · cases h : s.isRedactedPlaying <;> simp [handleRedactedPlayPause, h]
  · cases h : s.isRedactedPlaying <;> simp [handleRedactedPlayPause, h]

/-- C10: in each channel the `ended` listener clears the playing flag; a play
toggle that follows on an ended element first assigns position 0 to the element
and then calls `play()`, so the element plays from position 0; a play toggle on
an element that has not ended leaves its position as it was. -/
theorem play_after_end_restarts (s : MainWindow) (el : AudioElement) (ok : Bool) :
    (onEnded s).isPlaying = false ∧
    (onRedactedEnded s).isRedactedPlaying = false ∧
    (handlePlayPause { onEnded s with audioRef := some { el with ended := true } } true).audioRef
      = some (({ el with ended := true }.setCurrentTime (.fin 0)).play) ∧
    (({ el with ended := true }.setCurrentTime (.fin 0)).play).calls
      = el.calls ++ [.setCurrentTime (.fin 0), .play] ∧
    (({ el with ended := true }.setCurrentTime (.fin 0)).play).currentTime = .fin 0 ∧
    (handlePlayPause { onEnded s with audioRef := some { el with ended := true } } true).isPlaying
      = true ∧
    (handlePlayPause { s with isPlaying := false, audioRef := some { el with ended := false } }
        ok).audioRef.map (fun e => e.currentTime) = some el.currentTime ∧
    (handleRedactedPlayPause
        { onRedactedEnded s with redactedAudioRef := some { el with ended := true } }
        true).redactedAudioRef
      = some (({ el with ended := true }.setCurrentTime (.fin 0)).play) ∧
    (handleRedactedPlayPause
        { onRedactedEnded s with redactedAudioRef := some { el with ended := true } }
        true).isRedactedPlaying = true ∧
    (handleRedactedPlayPause
        { s with isRedactedPlaying := false, redactedAudioRef := some { el with ended := false } }
        ok).redactedAudioRef.map (fun e => e.currentTime) = some el.currentTime := by
  refine ⟨rfl, rfl, rfl, ?_, rfl, rfl, ?_, rfl, rfl, ?_⟩
  · simp [AudioElement.play, AudioElement.setCurrentTime]
  · cases ok <;> rfl
  · cases ok <;> rfl

/-! ## Properties of playback errors and restart -/

/-- C11 fails as stated: with the original channel playing at reported position
5, a restart whose `play()` rejects leaves the reported position at 0, not at 5. -/
theorem restart_failure_moves_position :
    (handleRestart
      { MainWindow.init with
          audioRef := some { AudioElement.new with
            src := "blob:a", duration := .fin 10, currentTime := .fin 5, paused := false },
          isPlaying := true, currentTime := .fin 5, duration := .fin 10 }
      false).currentTime = .fin 0 ∧
    (handleRestart
      { MainWindow.init with
          audioRef := some { AudioElement.new with
            src := "blob:a", duration := .fin 10, currentTime := .fin 5, paused := false },
          isPlaying := true, currentTime := .fin 5, duration := .fin 10 }
      false).isPlaying = false ∧
    (JSNum.fin 0 ≠ JSNum.fin 5) := by
  refine ⟨rfl, rfl, ?_⟩
  intro h
  injection h with h
  norm_num at h

/-- C11, amended: in both channels, when the media call fails inside the
play/pause toggle, or `play()` fails inside restart, or the element raises an
error event, the playing flag is false afterwards and the source of the
element and the reported duration are as before; the reported position is as
before after the toggle and the error event, and is 0 after restart, which has
set it before the play attempt.  A later toggle that succeeds plays again. -/
theorem playback_failure_keeps_source (s : MainWindow) (el : AudioElement) :
    ((handlePlayPause { s with audioRef := some el } false).isPlaying = false ∧
      (handlePlayPause { s with audioRef := some el } false).audioRef.map (fun e => e.src)
        = some el.src ∧
      (handlePlayPause { s with audioRef := some el } false).duration = s.duration ∧
      (handlePlayPause { s with audioRef := some el } false).currentTime = s.currentTime ∧
      (handlePlayPause (handlePlayPause { s with audioRef := some el } false) true).isPlaying
        = true) ∧
    ((handleRestart { s with audioRef := some el, isPlaying := true } false).isPlaying = false ∧
      (handleRestart { s with audioRef := some el, isPlaying := true } false).audioRef.map
        (fun e => e.src) = some el.src ∧
      (handleRestart { s with audioRef := some el, isPlaying := true } false).duration
        = s.duration ∧
      (handleRestart { s with audioRef := some el, isPlaying := true } false).currentTime
        = .fin 0) ∧
    handleError s = { s with isPlaying := false } ∧
    ((handleRedactedPlayPause { s with redactedAudioRef := some el } false).isRedactedPlaying
        = false ∧
      (handleRedactedPlayPause { s with redactedAudioRef := some el } false).redactedAudioRef.map
        (fun e => e.src) = some el.src ∧
      (handleRedactedPlayPause { s with redactedAudioRef := some el } false).redactedDuration
        = s.redactedDuration ∧
      (handleRedactedPlayPause { s with redactedAudioRef := some el } false).redactedCurrentTime
        = s.redactedCurrentTime ∧
      (handleRedactedPlayPause
        (handleRedactedPlayPause { s with redactedAudioRef := some el } false)
        true).isRedactedPlaying = true) ∧
    ((handleRedactedRestart
        { s with redactedAudioRef := some el, isRedactedPlaying := true } false).isRedactedPlaying
        = false ∧
      (handleRedactedRestart
        { s with redactedAudioRef := some el, isRedactedPlaying := true } false).redactedAudioRef.map
        (fun e => e.src) = some el.src ∧
      (handleRedactedRestart
        { s with redactedAudioRef := some el, isRedactedPlaying := true } false).redactedDuration
        = s.redactedDuration ∧
      (handleRedactedRestart
        { s with redactedAudioRef := some el, isRedactedPlaying := true }
        false).redactedCurrentTime = .fin 0) ∧
    handleRedactedError s = { s with isRedactedPlaying := false } := by
  refine ⟨⟨?_, ?_, ?_, ?_, ?_⟩, ⟨rfl, rfl, rfl, rfl⟩, rfl, ⟨?_, ?_, ?_, ?_, ?_⟩,
    ⟨rfl, rfl, rfl, rfl⟩, rfl⟩
  all_goals first
    | (cases h : s.isPlaying <;> cases h2 : el.ended <;>
        simp [handlePlayPause, h, h2, AudioElement.playRejected, AudioElement.setCurrentTime]; done)
    | (cases h : s.isRedactedPlaying <;> cases h2 : el.ended <;>
        simp [handleRedactedPlayPause, h, h2, AudioElement.playRejected,
          AudioElement.setCurrentTime])

/-- C12: in each channel restart sets the element position and the reported
current time to 0; it calls `play()` after that exactly when the playing flag is
true; the playing flag is as before unless that `play()` fails, in which case it
is false. -/
theorem restart_seeks_to_zero (s : MainWindow) (el : AudioElement) (ok : Bool) :
    (handleRestart { s with audioRef := some el } ok).currentTime = .fin 0 ∧
    (handleRestart { s with audioRef := some el } ok).audioRef.map (fun e => e.currentTime)
      = some (.fin 0) ∧
    (handleRestart { s with audioRef := some el, isPlaying := true } ok).audioRef.map
      (fun e => e.calls) = some (el.calls ++ [.setCurrentTime (.fin 0), .play]) ∧
    (handleRestart { s with audioRef := some el, isPlaying := false } ok).audioRef.map
      (fun e => e.calls) = some (el.calls ++ [.setCurrentTime (.fin 0)]) ∧
    (handleRestart { s with audioRef := some el } true).isPlaying = s.isPlaying ∧
    (handleRestart { s with audioRef := some el, isPlaying := false } ok).isPlaying = false ∧
    (handleRestart { s with audioRef := some el, isPlaying := true } false).isPlaying = false ∧
    (handleRedactedRestart { s with redactedAudioRef := some el } ok).redactedCurrentTime
      = .fin 0 ∧
    (handleRedactedRestart { s with redactedAudioRef := some el } ok).redactedAudioRef.map
      (fun e => e.currentTime) = some (.fin 0) ∧
    (handleRedactedRestart
      { s with redactedAudioRef := some el, isRedactedPlaying := true } ok).redactedAudioRef.map
      (fun e => e.calls) = some (el.calls ++ [.setCurrentTime (.fin 0), .play]) ∧
    (handleRedactedRestart
      { s with redactedAudioRef := some el, isRedactedPlaying := false } ok).redactedAudioRef.map
      (fun e => e.calls) = some (el.calls ++ [.setCurrentTime (.fin 0)]) ∧
    (handleRedactedRestart { s with redactedAudioRef := some el } true).isRedactedPlaying
      = s.isRedactedPlaying ∧
    (handleRedactedRestart
      { s with redactedAudioRef := some el, isRedactedPlaying := false } ok).isRedactedPlaying
      = false ∧
    (handleRedactedRestart
      { s with redactedAudioRef := some el, isRedactedPlaying := true } false).isRedactedPlaying
      = false := by
  refine ⟨?_, ?_, ?_, ?_, ?_, rfl, rfl, ?_, ?_, ?_, ?_, ?_, rfl, rfl⟩
  all_goals first
    | (cases ok <;> cases h : s.isPlaying <;>
        simp [handleRestart, h, AudioElement.play, AudioElement.playRejected,
          AudioElement.setCurrentTime]; done)
    | (cases ok <;> cases h : s.isRedactedPlaying <;>
        simp [handleRedactedRestart, h, AudioElement.play, AudioElement.playRejected,
          AudioElement.setCurrentTime])

/-! ## Properties of the recording session -/

namespace AudioRecorder

/-- What `signalStop` does to each recorder: one more `stop()` call at position
`r`, nothing elsewhere. -/
theorem getElem?_signalStop (recorders : List MediaRecorder) (r i : Nat) :
    (signalStop recorders r)[i]? =
      (recorders[i]?).map
        (fun rec => if i = r then { rec with stopCalls := rec.stopCalls + 1 } else rec) := by
  simp [signalStop, List.getElem?_mapIdx]

end AudioRecorder

/-- C13: `stopRecording` acts only while capturing: with `isRecording` false, or
with no recorder, it returns the state as it is (no stop signal, nothing
changed); while capturing it sends one `stop()` to the recorder held by the
session and to no other, sets `isRecording` false, and touches no stream; so
of two calls in a row the second changes nothing: no further stop signal and
no track stopped. -/
theorem stopRecording_only_while_capturing (s : AudioRecorder) (r i : Nat) :
    ({ s with isRecording := false } : AudioRecorder).stopRecording
      = { s with isRecording := false } ∧
    ({ s with mediaRecorderRef := none } : AudioRecorder).stopRecording
      = { s with mediaRecorderRef := none } ∧
    (({ s with isRecording := true, mediaRecorderRef := some r } : AudioRecorder).stopRecording
      ).isRecording = false ∧
    ((({ s with isRecording := true, mediaRecorderRef := some r } : AudioRecorder).stopRecording
      ).recorders[i]?).map (fun rec => rec.stopCalls)
      = (s.recorders[i]?).map (fun rec => if i = r then rec.stopCalls + 1 else rec.stopCalls) ∧
    s.stopRecording.streams = s.streams ∧
    s.stopRecording.stopRecording = s.stopRecording ∧
    s.stopRecording.stopRecording.recorders = s.stopRecording.recorders ∧
    s.stopRecording.stopRecording.streams = s.stopRecording.streams := by
  have idem : s.stopRecording.stopRecording = s.stopRecording := by
    unfold AudioRecorder.stopRecording
    cases h1 : s.mediaRecorderRef with
    | none => simp [h1]
    | some r0 =>
      cases h2 : s.isRecording with
      | false => simp [h1, h2]
      | true => simp
  refine ⟨?_, ?_, rfl, ?_, ?_, idem, ?_, ?_⟩
  · unfold AudioRecorder.stopRecording
    cases h1 : s.mediaRecorderRef <;> simp
  · rfl
  · simp only [AudioRecorder.stopRecording, if_true, AudioRecorder.getElem?_signalStop,
      Option.map_map]
    cases s.recorders[i]? with
    | none => rfl
    | some rec => by_cases h : i = r <;> simp [h]
  · unfold AudioRecorder.stopRecording
    cases h1 : s.mediaRecorderRef with
    | none => rfl
    | some r0 => cases h2 : s.isRecording <;> simp
  · rw [idem]
  · rw [idem]

/-- Handler `startRecording()` run without interruption is the request followed by
the statements after the `await`. -/
theorem startRecording_eq_request_resume (s : AudioRecorder) (mic : MicOutcome) (now : JSNum) :
    s.startRecording mic now =
      ({ s with micRequests := s.micRequests + 1 } : AudioRecorder).startRecordingResume mic now
        := by
  cases mic <;> rfl

/-- C14 does not hold, and the session loses a live stream: `startRecording` has no
state check; the only check is the record button, which reads `isRecording` when
it is clicked (a click while it is set is `stopRecording` and requests nothing).
Two clicks on Start Recording before `getUserMedia` answers both find
`isRecording` false and both issue a request.  When the first is granted the
session is capturing; when the second is granted the rest of `startRecording`
runs on that capturing session: a second stream and recorder replace the held
ones, the chunks are emptied and the start timestamp is reset.  After Stop the
second stream has its track stopped, and the first stream is never stopped, its
recorder never receives `stop()`, and one interval stays active (none when
the cleanup of the first start runs before the second grant; the stream and
the recorder are orphaned in both orders). -/
theorem double_start_orphans_capture :
    RecorderSession.clickedTwice.recorder.micRequests = 2 ∧
    RecorderSession.clickedTwice.awaitingMic = 2 ∧
    RecorderSession.firstGranted.recorder.isRecording = true ∧
    RecorderSession.firstGranted.recorder.streamRef = some 0 ∧
    RecorderSession.firstGranted.recorder.mediaRecorderRef = some 0 ∧
    RecorderSession.firstGranted.recorder.audioChunksRef = [⟨[7, 7], "audio/webm"⟩] ∧
    RecorderSession.firstGranted.recorder.startTimeRef = some (.fin 1000) ∧
    RecorderSession.firstGranted.recordClick =
      { RecorderSession.firstGranted with
          recorder := RecorderSession.firstGranted.recorder.stopRecording } ∧
    RecorderSession.firstGranted.recordClick.recorder.micRequests = 2 ∧
    RecorderSession.secondGranted.recorder.micRequests = 2 ∧
    RecorderSession.secondGranted.recorder.streamRef = some 1 ∧
    RecorderSession.secondGranted.recorder.mediaRecorderRef = some 1 ∧
    RecorderSession.secondGranted.recorder.audioChunksRef = [] ∧
    RecorderSession.secondGranted.recorder.startTimeRef = some (.fin 1500) ∧
    RecorderSession.secondGranted.recorder.streams = [⟨[0]⟩, ⟨[0]⟩] ∧
    RecorderSession.secondGranted.recorder.activeTimers = [1, 2] ∧
    RecorderSession.finishedAfterDoubleStart.isRecording = false ∧
    RecorderSession.finishedAfterDoubleStart.streams = [⟨[0]⟩, ⟨[1]⟩] ∧
    RecorderSession.finishedAfterDoubleStart.recorders =
      [⟨0, "audio/webm", 1, 0⟩, ⟨1, "audio/webm", 1, 2⟩] ∧
    RecorderSession.finishedAfterDoubleStart.activeTimers = [1] ∧
    RecorderSession.finishedAfterDoubleStartEarlyCleanup.streams = [⟨[0]⟩, ⟨[1]⟩] ∧
    RecorderSession.finishedAfterDoubleStartEarlyCleanup.recorders =
      [⟨0, "audio/webm", 1, 0⟩, ⟨1, "audio/webm", 1, 2⟩] ∧
    RecorderSession.finishedAfterDoubleStartEarlyCleanup.activeTimers = [] := by
  refine ⟨?_, ?_, ?_, ?_, ?_, ?_, ?_, ?_, ?_, ?_, ?_, ?_, ?_, ?_, ?_, ?_, ?_, ?_, ?_, ?_,
    ?_, ?_, ?_⟩ <;> rfl

/-- C15: when `getUserMedia` rejects (permission denied or no device), the error
is thrown inside the `try` block and caught: `startRecording` returns the state
it was called on, with the request counted and the error logged.  So
`isRecording` and `recordedBlob` are as before (false and null for an idle
session), no timer is created or active beyond those before, and no stream or
recorder is created or stored. -/
theorem startRecording_mic_failure (s : AudioRecorder) (now : JSNum) :
    (s.startRecordingTry .permissionDenied now).2 = some "NotAllowedError" ∧
    (s.startRecordingTry .deviceUnavailable now).2 = some "NotFoundError" ∧
    s.startRecording .permissionDenied now =
      { s with micRequests := s.micRequests + 1,
               consoleErrors := s.consoleErrors ++ ["Error accessing microphone: NotAllowedError"] } ∧
    s.startRecording .deviceUnavailable now =
      { s with micRequests := s.micRequests + 1,
               consoleErrors := s.consoleErrors ++ ["Error accessing microphone: NotFoundError"] } ∧
    (AudioRecorder.init.startRecording .permissionDenied now).observable
      = AudioRecorder.init.observable ∧
    (AudioRecorder.init.startRecording .deviceUnavailable now).observable
      = AudioRecorder.init.observable ∧
    (AudioRecorder.init.startRecording .permissionDenied now).isRecording = false ∧
    (AudioRecorder.init.startRecording .permissionDenied now).recordedBlob = none ∧
    (AudioRecorder.init.startRecording .permissionDenied now).activeTimers = [] ∧
    (AudioRecorder.init.startRecording .permissionDenied now).timersCreated = 0 ∧
    (AudioRecorder.init.startRecording .permissionDenied now).streamRef = none ∧
    (AudioRecorder.init.startRecording .permissionDenied now).mediaRecorderRef = none ∧
    (AudioRecorder.init.startRecording .permissionDenied now).streams = [] ∧
    (AudioRecorder.init.startRecording .permissionDenied now).recorders = [] := by
  refine ⟨rfl, rfl, rfl, rfl, rfl, rfl, rfl, rfl, rfl, rfl, rfl, rfl, rfl, rfl⟩

/-- C16, the code at the failing input: after record, stop, the `onstop` listener
and a successful Play, the Delete click clears the take, the durations and the
position and pauses the element, but the playing flag is still true, so the
state slots are not those of a fresh recorder; in general the Delete click
returns the playing flag it was given. -/
theorem delete_keeps_playing_flag :
    (∀ s : AudioRecorder, s.deleteClick.isPlaying = s.isPlaying) ∧
    AudioRecorder.playingTake.recordedBlob = some ⟨[7, 7], "audio/webm"⟩ ∧
    AudioRecorder.playingTake.isRecording = false ∧
    AudioRecorder.playingTake.isPlaying = true ∧
    AudioRecorder.playingTake.deleteClick.isPlaying = true ∧
    AudioRecorder.playingTake.deleteClick.recordedBlob = none ∧
    AudioRecorder.playingTake.deleteClick.audioRef.map (fun e => (e.paused, e.src))
      = some (true, "") ∧
    AudioRecorder.playingTake.deleteClick.observable ≠ AudioRecorder.init.observable := by
  refine ⟨fun _ => rfl, rfl, rfl, rfl, rfl, rfl, rfl, ?_⟩
  intro h
  have h2 := congrArg (fun t => t.2.2.1) h
  exact absurd h2 (by decide)

/-- C17: with a recorded blob, `handleSave` calls `onSave` once, with a list of
exactly one file, named `recording.webm`, of type `audio/webm`, whose content
is the recorded blob, and then calls `onClose`, and does nothing else; without
a recorded blob it calls neither and changes nothing. -/
theorem handleSave_hands_one_file (s : AudioRecorder) (b : Blob) :
    ({ s with recordedBlob := some b } : AudioRecorder).handleSave =
      { s with recordedBlob := some b,
               parentCalls := s.parentCalls ++
                 [.onSave [⟨"recording.webm", "audio/webm", b.bytes⟩],
                  .onClose] } ∧
    ({ s with recordedBlob := none } : AudioRecorder).handleSave
      = { s with recordedBlob := none } ∧
    (({ s with recordedBlob := none } : AudioRecorder).handleSave).parentCalls = s.parentCalls ∧
    "recording.webm" = "recording" ++ ".webm" := by
  refine ⟨rfl, rfl, rfl, by decide⟩

/-! ## Properties of source loading and object URLs -/

/-- C18: when the redacted-audio fetch is issued and is rejected with an error,
or answered with a non-OK response, the only slots that end up changed are the
redacted channel's error description, which is set, and its loading flag,
which is false; in particular the playing flag, reported position, reported
duration and element of the original channel are what they were, and no `URL`
call is made. -/
theorem fetch_failure_only_marks_redacted (v : MainWindowView) (redactedAudioUrl : Option String)
    (message : String) (h : fetchGuard v redactedAudioUrl = true) :
    fetchRedactedAudio v redactedAudioUrl (.rejected message) =
      { v with win := { v.win with redactedError := some message, isRedactedLoading := false } } ∧
    fetchRedactedAudio v redactedAudioUrl .notOk =
      { v with win := { v.win with redactedError := some "Failed to fetch redacted audio",
                                   isRedactedLoading := false } } ∧
    (fetchRedactedAudio v redactedAudioUrl (.rejected message)).win.isPlaying = v.win.isPlaying ∧
    (fetchRedactedAudio v redactedAudioUrl (.rejected message)).win.currentTime
      = v.win.currentTime ∧
    (fetchRedactedAudio v redactedAudioUrl (.rejected message)).win.duration = v.win.duration ∧
    (fetchRedactedAudio v redactedAudioUrl (.rejected message)).win.audioRef = v.win.audioRef ∧
    (fetchRedactedAudio v redactedAudioUrl .notOk).win.isPlaying = v.win.isPlaying ∧
    (fetchRedactedAudio v redactedAudioUrl .notOk).win.currentTime = v.win.currentTime ∧
    (fetchRedactedAudio v redactedAudioUrl .notOk).win.duration = v.win.duration ∧
    (fetchRedactedAudio v redactedAudioUrl .notOk).win.audioRef = v.win.audioRef := by
  have hrej : fetchRedactedAudio v redactedAudioUrl (.rejected message) =
      { v with win := { v.win with redactedError := some message,
                                   isRedactedLoading := false } } := by
    unfold fetchRedactedAudio
    rw [if_pos h]
    rfl
  have hnot : fetchRedactedAudio v redactedAudioUrl .notOk =
      { v with win := { v.win with redactedError := some "Failed to fetch redacted audio",
                                   isRedactedLoading := false } } := by
    unfold fetchRedactedAudio
    rw [if_pos h]
    rfl
  refine ⟨hrej, hnot, ?_, ?_, ?_, ?_, ?_, ?_, ?_, ?_⟩
  · rw [hrej]
  · rw [hrej]
  · rw [hrej]
  · rw [hrej]
  · rw [hnot]
  · rw [hnot]
  · rw [hnot]
  · rw [hnot]

/-- Witness for C18: a mounted window with one file, whose result names a
redacted audio path, and a fetch that fails with "Failed to fetch". -/
theorem fetch_failure_only_marks_redacted_witness :
    (fetchRedactedAudio (mountView (some ⟨"a.wav", [1]⟩) "blob:o1") (some "/api/redacted/a.wav")
      (.rejected "Failed to fetch")).win.redactedError = some "Failed to fetch" ∧
    (fetchRedactedAudio (mountView (some ⟨"a.wav", [1]⟩) "blob:o1") (some "/api/redacted/a.wav")
      (.rejected "Failed to fetch")).win.isPlaying = false := by
  have h := fetch_failure_only_marks_redacted (mountView (some ⟨"a.wav", [1]⟩) "blob:o1")
    (some "/api/redacted/a.wav") "Failed to fetch" (by decide)
  exact ⟨by rw [h.1], by rw [h.2.2.1]; rfl⟩

/-- Folding the `URL` calls from a given set of live URLs. -/
theorem liveUrls_foldl_pairs (us : List String) (rest : List UrlCall) :
    liveUrls (urlPairs us ++ rest) = liveUrls rest := by
  induction us with
  | nil => rfl
  | cons u us ih =>
    have : urlPairs (u :: us) ++ rest = .create u :: .revoke u :: (urlPairs us ++ rest) := by
      simp [urlPairs]
    rw [this]
    unfold liveUrls at ih ⊢
    simpa [List.foldl_cons] using ih

/-- After complete create/revoke pairs no URL is live. -/
theorem liveUrls_pairs (us : List String) : liveUrls (urlPairs us) = [] := by
  have := liveUrls_foldl_pairs us []
  simpa [liveUrls] using this

/-- Appending one pair to a list of pairs. -/
theorem urlPairs_snoc (us : List String) (u : String) :
    urlPairs us ++ [.create u, .revoke u] = urlPairs (us ++ [u]) := by
  simp [urlPairs]

/-- In a list of pairs every URL is revoked as often as it is created. -/
theorem count_urlPairs (us : List String) (u : String) :
    (urlPairs us).count (.revoke u) = (urlPairs us).count (.create u) := by
  induction us with
  | nil => rfl
  | cons w us ih =>
    have : urlPairs (w :: us) = .create w :: .revoke w :: urlPairs us := by simp [urlPairs]
    rw [this]
    by_cases hw : w = u
    · subst hw; simp [List.count_cons, ih]
    · have h1 : (UrlCall.create w == UrlCall.create u) = false := by simp [hw]
      have h2 : (UrlCall.revoke w == UrlCall.revoke u) = false := by simp [hw]
      simp [List.count_cons, ih, h1, h2]

/-- The audio source effect keeps the paired shape when no cleanup is pending. -/
theorem audioSourceEffect_paired (v : MainWindowView) (file : Option AudioFile) (url : String)
    (h1 : v.win.audioUrlRef = none) (us : List String) (h2 : v.urlCalls = urlPairs us) :
    OriginalUrlsPaired (audioSourceEffect v file url) := by
  unfold audioSourceEffect
  split
  · exact ⟨h1, us, by simp [h2]⟩
  · exact ⟨h1, us, by simp [h2]⟩

/-- The audio source cleanup closes the open pair. -/
theorem audioSourceCleanup_urlCalls (v : MainWindowView) (u : String) :
    (audioSourceCleanup v u).urlCalls = v.urlCalls ++ [.revoke u] ∧
    (audioSourceCleanup v u).win.audioUrlRef = v.win.audioUrlRef ∧
    (audioSourceCleanup v u).sourceCleanup = none := by
  unfold audioSourceCleanup
  cases v.win.audioRef <;> exact ⟨rfl, rfl, rfl⟩

/-- A change of the current audio file keeps the paired shape. -/
theorem changeAudioFile_paired (v : MainWindowView) (file : Option AudioFile) (url : String)
    (h : OriginalUrlsPaired v) : OriginalUrlsPaired (changeAudioFile v file url) := by
  obtain ⟨h1, us, h2⟩ := h
  unfold changeAudioFile
  cases hc : v.sourceCleanup with
  | none =>
    apply audioSourceEffect_paired _ _ _ h1 us
    simpa [hc] using h2
  | some u =>
    obtain ⟨e1, e2, _⟩ := audioSourceCleanup_urlCalls v u
    apply audioSourceEffect_paired _ _ _ (e2.trans h1) (us ++ [u])
    rw [e1, h2, hc, ← urlPairs_snoc]
    simp

/-- A run of the fetch effect leaves the original channel's bookkeeping alone. -/
theorem fetchRedactedAudio_original (v : MainWindowView) (redactedAudioUrl : Option String)
    (outcome : FetchOutcome) :
    (fetchRedactedAudio v redactedAudioUrl outcome).urlCalls = v.urlCalls ∧
    (fetchRedactedAudio v redactedAudioUrl outcome).sourceCleanup = v.sourceCleanup ∧
    (fetchRedactedAudio v redactedAudioUrl outcome).win.audioUrlRef = v.win.audioUrlRef := by
  unfold fetchRedactedAudio
  split
  · cases outcome with
    | rejected m => exact ⟨rfl, rfl, rfl⟩
    | notOk => exact ⟨rfl, rfl, rfl⟩
    | ok a =>
      simp only [fetchRedactedAudioResolve, fetchRedactedAudioStart]
      cases v.win.redactedAudioRef <;> exact ⟨rfl, rfl, rfl⟩
  · exact ⟨rfl, rfl, rfl⟩

/-- Every event keeps the paired shape. -/
theorem stepView_paired (v : MainWindowView) (e : ViewEvent) (h : OriginalUrlsPaired v) :
    OriginalUrlsPaired (stepView v e) := by
  cases e with
  | audioFileChanged file url => exact changeAudioFile_paired v file url h
  | redactedUrlChanged r outcome =>
    obtain ⟨e1, e2, e3⟩ := fetchRedactedAudio_original v r outcome
    obtain ⟨h1, us, h2⟩ := h
    refine ⟨e3.trans h1, us, ?_⟩
    show (fetchRedactedAudio v r outcome).urlCalls = _
    rw [e1, h2]
    show _ = urlPairs us ++ (fetchRedactedAudio v r outcome).sourceCleanup.toList.map _
    rw [e2]

/-- Every run keeps the paired shape. -/
theorem runView_paired (events : List ViewEvent) (v : MainWindowView)
    (h : OriginalUrlsPaired v) : OriginalUrlsPaired (runView v events) := by
  induction events generalizing v with
  | nil => exact h
  | cons e es ih => exact ih (stepView v e) (stepView_paired v e h)

/-- A freshly mounted window has the paired shape. -/
theorem mountView_paired (file : Option AudioFile) (url : String) :
    OriginalUrlsPaired (mountView file url) := by
  have h := audioSourceEffect_paired
    (initAudioEffect
      { win := MainWindow.init, urlCalls := [], redactedUrlCalls := [], sourceCleanup := none })
    file url rfl [] rfl
  exact h

/-- Unmounting completes the pairs. -/
theorem unmountView_pairs (v : MainWindowView) (h : OriginalUrlsPaired v) :
    ∃ us : List String, (unmountView v).urlCalls = urlPairs us := by
  obtain ⟨h1, us, h2⟩ := h
  have a1 : (initAudioCleanup v).urlCalls = v.urlCalls ∧
      (initAudioCleanup v).sourceCleanup = v.sourceCleanup := by
    unfold initAudioCleanup
    cases v.win.audioRef with
    | none => exact ⟨rfl, rfl⟩
    | some el => simp [h1, truthyString]
  have a2 : ∀ w : MainWindowView, (initRedactedCleanup w).urlCalls = w.urlCalls := by
    intro w
    unfold initRedactedCleanup
    cases w.win.redactedAudioRef with
    | none => rfl
    | some el => simp only; split <;> rfl
  unfold unmountView
  simp only [a2]
  cases hc : v.sourceCleanup with
  | none =>
    refine ⟨us, ?_⟩
    rw [a1.2, hc]
    simp only
    rw [a1.1, h2, hc]; simp
  | some u =>
    refine ⟨us ++ [u], ?_⟩
    rw [a1.2, hc]
    simp only
    rw [(audioSourceCleanup_urlCalls _ u).1, a1.1, h2, hc, ← urlPairs_snoc]
    simp

/-- C19: for every sequence of changes of the active file (interleaved at will
with loads into the redacted channel) after mount, the `URL` calls of the
original channel are complete create/revoke pairs, each URL revoked right after
its creation and before the next is created, followed at most by the creation
of the one URL whose cleanup is pending; hence at most one object URL of the
channel is live at any time.  After unmount the calls are complete pairs: every
URL is revoked as often as it was created and none is live. -/
theorem original_channel_urls_paired (file : Option AudioFile) (url : String)
    (events : List ViewEvent) (u : String) :
    (∃ us : List String,
      (runView (mountView file url) events).urlCalls =
        urlPairs us ++ (runView (mountView file url) events).sourceCleanup.toList.map
          UrlCall.create) ∧
    liveUrls (runView (mountView file url) events).urlCalls
      = (runView (mountView file url) events).sourceCleanup.toList ∧
    (liveUrls (runView (mountView file url) events).urlCalls).length ≤ 1 ∧
    (∃ us : List String,
      (unmountView (runView (mountView file url) events)).urlCalls = urlPairs us) ∧
    liveUrls (unmountView (runView (mountView file url) events)).urlCalls = [] ∧
    (unmountView (runView (mountView file url) events)).urlCalls.count (.revoke u)
      = (unmountView (runView (mountView file url) events)).urlCalls.count (.create u) := by
  have hrun := runView_paired events _ (mountView_paired file url)
  obtain ⟨us2, h2⟩ := unmountView_pairs _ hrun
  obtain ⟨_, us, h1⟩ := hrun
  have hlive : liveUrls (runView (mountView file url) events).urlCalls
      = (runView (mountView file url) events).sourceCleanup.toList := by
    rw [h1, liveUrls_foldl_pairs]
    cases (runView (mountView file url) events).sourceCleanup <;> rfl
  refine ⟨⟨us, h1⟩, hlive, ?_, ⟨us2, h2⟩, ?_, ?_⟩
  · rw [hlive]
    cases (runView (mountView file url) events).sourceCleanup <;> simp
  · rw [h2, liveUrls_pairs]
  · rw [h2, count_urlPairs]

/-- C20, the code at the failing input: after mount, two successful loads into
the redacted channel create two object URLs and revoke none, so both are live;
unmounting revokes only the second, and the first stays live.  In general a
successful load adds one `create` to the channel's `URL` calls and no `revoke`. -/
theorem redacted_load_leaks_previous_url :
    (∀ (v : MainWindowView) (r : Option String) (a : String), fetchGuard v r = true →
      (fetchRedactedAudio v r (.ok a)).redactedUrlCalls = v.redactedUrlCalls ++ [.create a]) ∧
    (runView (mountView (some ⟨"a.wav", [1]⟩) "blob:o1")
      [.redactedUrlChanged (some "/redacted/a.wav") (.ok "blob:r1"),
       .redactedUrlChanged (some "/redacted/b.wav") (.ok "blob:r2")]).redactedUrlCalls
      = [.create "blob:r1", .create "blob:r2"] ∧
    liveUrls (runView (mountView (some ⟨"a.wav", [1]⟩) "blob:o1")
      [.redactedUrlChanged (some "/redacted/a.wav") (.ok "blob:r1"),
       .redactedUrlChanged (some "/redacted/b.wav") (.ok "blob:r2")]).redactedUrlCalls
      = ["blob:r1", "blob:r2"] ∧
    (unmountView (runView (mountView (some ⟨"a.wav", [1]⟩) "blob:o1")
      [.redactedUrlChanged (some "/redacted/a.wav") (.ok "blob:r1"),
       .redactedUrlChanged (some "/redacted/b.wav") (.ok "blob:r2")])).redactedUrlCalls
      = [.create "blob:r1", .create "blob:r2", .revoke "blob:r2"] ∧
    liveUrls (unmountView (runView (mountView (some ⟨"a.wav", [1]⟩) "blob:o1")
      [.redactedUrlChanged (some "/redacted/a.wav") (.ok "blob:r1"),
       .redactedUrlChanged (some "/redacted/b.wav") (.ok "blob:r2")])).redactedUrlCalls
      = ["blob:r1"] := by
  refine ⟨?_, by decide, by decide, by decide, by decide⟩
  intro v r a h
  simp only [fetchRedactedAudio, h, if_true, fetchRedactedAudioResolve, fetchRedactedAudioStart]
  cases v.win.redactedAudioRef <;> rfl

/-! ## Properties of in-flight requests and of file switches -/

/-- C21 fails as stated: a request for file A's redacted audio is started, the
active file is switched to B (which starts B's request), and then A's response
arrives; it is applied: the redacted element gets A's audio as source, the
stored object URL is A's, and the loading flag is cleared although B's request
is still in flight.  After unmount a late response still sets the source and
the stored object URL. -/
theorem stale_response_is_applied :
    (runFetch (mountFetch (some ⟨"a.wav", [1]⟩) "blob:o1")
      [.fetchStart (some "/redacted/a.wav"),
       .fileSwitch (some ⟨"b.wav", [2]⟩) "blob:o2" (some "/redacted/b.wav"),
       .fetchResolve 0 (.ok "blob:rA")]).view.win.redactedAudioUrlRef = some "blob:rA" ∧
    (runFetch (mountFetch (some ⟨"a.wav", [1]⟩) "blob:o1")
      [.fetchStart (some "/redacted/a.wav"),
       .fileSwitch (some ⟨"b.wav", [2]⟩) "blob:o2" (some "/redacted/b.wav"),
       .fetchResolve 0 (.ok "blob:rA")]).view.win.redactedAudioRef.map (fun e => e.src)
      = some "blob:rA" ∧
    (runFetch (mountFetch (some ⟨"a.wav", [1]⟩) "blob:o1")
      [.fetchStart (some "/redacted/a.wav"),
       .fileSwitch (some ⟨"b.wav", [2]⟩) "blob:o2" (some "/redacted/b.wav"),
       .fetchResolve 0 (.ok "blob:rA")]).view.win.isRedactedLoading = false ∧
    (runFetch (mountFetch (some ⟨"a.wav", [1]⟩) "blob:o1")
      [.fetchStart (some "/redacted/a.wav"),
       .fileSwitch (some ⟨"b.wav", [2]⟩) "blob:o2" (some "/redacted/b.wav"),
       .fetchResolve 0 (.ok "blob:rA")]).pending = ["/redacted/b.wav"] ∧
    (runFetch (mountFetch (some ⟨"a.wav", [1]⟩) "blob:o1")
      [.fetchStart (some "/redacted/a.wav"),
       .fileSwitch (some ⟨"b.wav", [2]⟩) "blob:o2" (some "/redacted/b.wav"),
       .fetchResolve 0 (.rejected "Failed to fetch")]).view.win.redactedError
      = some "Failed to fetch" ∧
    (runFetch (mountFetch (some ⟨"a.wav", [1]⟩) "blob:o1")
      [.fetchStart (some "/redacted/a.wav"), .unmount,
       .fetchResolve 0 (.ok "blob:rA")]).view.win.redactedAudioUrlRef = some "blob:rA" ∧
    (runFetch (mountFetch (some ⟨"a.wav", [1]⟩) "blob:o1")
      [.fetchStart (some "/redacted/a.wav"), .unmount,
       .fetchResolve 0 (.ok "blob:rA")]).view.win.redactedAudioRef.map (fun e => e.src)
      = some "blob:rA" := by
  refine ⟨by decide, by decide, by decide, by decide, by decide, by decide, by decide⟩

/-- C21, amended: over the events fetch-start, file-switch, unmount and
fetch-resolve, no event cancels a request in flight (a fetch-start or a
file-switch keeps every pending request and unmount keeps them all), and the
response of any pending request, whether or not the active file was switched
since it was started, is applied as a current one would be: while mounted the
window after it is `fetchRedactedAudioResolve` of the window before, so a
success sets the stored object URL and clears the loading flag and a failure
sets the error and clears the loading flag; after unmount a success still sets
the stored object URL. -/
theorem response_applied_regardless_of_switch (st : FetchView) (i : Nat) (path : String)
    (outcome : FetchOutcome) (audioUrl message : String) (file : Option AudioFile)
    (url : String) (r : Option String) (h : st.pending[i]? = some path) :
    (stepFetch { st with mounted := true } (.fetchResolve i outcome)).view
      = fetchRedactedAudioResolve st.view outcome ∧
    (stepFetch { st with mounted := true } (.fetchResolve i (.ok audioUrl))
      ).view.win.redactedAudioUrlRef = some audioUrl ∧
    (stepFetch { st with mounted := true } (.fetchResolve i (.ok audioUrl))
      ).view.win.isRedactedLoading = false ∧
    (stepFetch { st with mounted := true } (.fetchResolve i (.rejected message))
      ).view.win.redactedError = some message ∧
    (stepFetch { st with mounted := true } (.fetchResolve i (.rejected message))
      ).view.win.isRedactedLoading = false ∧
    (stepFetch { st with mounted := false } (.fetchResolve i (.ok audioUrl))
      ).view.win.redactedAudioUrlRef = some audioUrl ∧
    st.pending <+: (stepFetch st (.fetchStart r)).pending ∧
    st.pending <+: (stepFetch st (.fileSwitch file url r)).pending ∧
    (stepFetch st .unmount).pending = st.pending := by
  have hres : ∀ (m : Bool) (o : FetchOutcome),
      (stepFetch { st with mounted := m } (.fetchResolve i o)).view =
        if m then fetchRedactedAudioResolve st.view o
        else { fetchRedactedAudioResolve st.view o with
                win := { (fetchRedactedAudioResolve st.view o).win with
                  isRedactedLoading := st.view.win.isRedactedLoading,
                  redactedError := st.view.win.redactedError } } := by
    intro m o
    simp only [stepFetch, h]
  have hok : ∀ v : MainWindowView,
      (fetchRedactedAudioResolve v (.ok audioUrl)).win.redactedAudioUrlRef = some audioUrl ∧
      (fetchRedactedAudioResolve v (.ok audioUrl)).win.isRedactedLoading = false := by
    intro v
    simp only [fetchRedactedAudioResolve]
    cases v.win.redactedAudioRef <;> exact ⟨rfl, rfl⟩
  have hstart : ∀ (s2 : FetchView), s2.pending <+: (startFetch s2 r).pending := by
    intro s2
    unfold startFetch
    split
    · exact List.prefix_append _ _
    · exact List.prefix_refl _
  refine ⟨?_, ?_, ?_, ?_, ?_, ?_, hstart st,
    hstart { st with view := changeAudioFile st.view file url }, rfl⟩
  · rw [hres]; rfl
  · rw [hres]; exact (hok _).1
  · rw [hres]; exact (hok _).2
  · rw [hres]; rfl
  · rw [hres]; rfl
  · rw [hres]
    simp only [Bool.false_eq_true, if_false]
    exact (hok _).1

/-- Witness for C21 (amended): the stale response of the scenario above. -/
theorem response_applied_regardless_of_switch_witness :
    (stepFetch
      (runFetch (mountFetch (some ⟨"a.wav", [1]⟩) "blob:o1")
        [.fetchStart (some "/redacted/a.wav"),
         .fileSwitch (some ⟨"b.wav", [2]⟩) "blob:o2" (some "/redacted/b.wav")])
      (.fetchResolve 0 (.ok "blob:rA"))).view.win.redactedAudioUrlRef = some "blob:rA" :=
  (response_applied_regardless_of_switch
    (runFetch (mountFetch (some ⟨"a.wav", [1]⟩) "blob:o1")
      [.fetchStart (some "/redacted/a.wav"),
       .fileSwitch (some ⟨"b.wav", [2]⟩) "blob:o2" (some "/redacted/b.wav")])
    0 "/redacted/a.wav" (.ok "blob:rA") "blob:rA" "" none "" none (by decide)).2.1

/-- C24 fails as stated: with file A playing at reported position 5, switching
to file B pauses and clears A's source and clears the playing flag, but the
reported position is still 5 after the switch. -/
theorem file_switch_keeps_reported_position :
    (changeAudioFile
      { mountView (some ⟨"a.wav", [1]⟩) "blob:o1" with
        win := { (mountView (some ⟨"a.wav", [1]⟩) "blob:o1").win with
          isPlaying := true, currentTime := .fin 5, duration := .fin 10 } }
      (some ⟨"b.wav", [2]⟩) "blob:o2").win.currentTime = .fin 5 ∧
    (changeAudioFile
      { mountView (some ⟨"a.wav", [1]⟩) "blob:o1" with
        win := { (mountView (some ⟨"a.wav", [1]⟩) "blob:o1").win with
          isPlaying := true, currentTime := .fin 5, duration := .fin 10 } }
      (some ⟨"b.wav", [2]⟩) "blob:o2").win.isPlaying = false ∧
    (changeAudioFile
      { mountView (some ⟨"a.wav", [1]⟩) "blob:o1" with
        win := { (mountView (some ⟨"a.wav", [1]⟩) "blob:o1").win with
          isPlaying := true, currentTime := .fin 5, duration := .fin 10 } }
      (some ⟨"b.wav", [2]⟩) "blob:o2").win.audioRef.map (fun e => e.src) = some "blob:o2" ∧
    JSNum.fin 5 ≠ JSNum.fin 0 := by
  refine ⟨rfl, rfl, rfl, ?_⟩
  intro h
  injection h with h
  norm_num at h

/-- C24, amended: when the active file changes to another file, the cleanup of
the source effect pauses the element and clears its source and the playing flag
becomes false; the new source is then set and loaded, which puts the element at
position 0.  The switch does not write the reported position, which keeps its
value; it becomes the element's position, 0, at the element's next
`timeupdate` event. -/
theorem file_switch_resets_element (v : MainWindowView) (el : AudioElement) (u url : String)
    (file : AudioFile) :
    (changeAudioFile
      { v with win := { v.win with audioRef := some el }, sourceCleanup := some u }
      (some file) url).win.isPlaying = false ∧
    (changeAudioFile
      { v with win := { v.win with audioRef := some el }, sourceCleanup := some u }
      (some file) url).win.audioRef = some (((el.pause.setSrc "").setSrc url).load) ∧
    (((el.pause.setSrc "").setSrc url).load).calls
      = el.calls ++ [.pause, .setSrc "", .setSrc url, .load] ∧
    (((el.pause.setSrc "").setSrc url).load).src = url ∧
    (((el.pause.setSrc "").setSrc url).load).currentTime = .fin 0 ∧
    (((el.pause.setSrc "").setSrc url).load).paused = true ∧
    (changeAudioFile
      { v with win := { v.win with audioRef := some el }, sourceCleanup := some u }
      (some file) url).win.currentTime = v.win.currentTime ∧
    (handleTimeUpdate (changeAudioFile
      { v with win := { v.win with audioRef := some el }, sourceCleanup := some u }
      (some file) url).win).currentTime = .fin 0 := by
  refine ⟨rfl, rfl, ?_, rfl, rfl, rfl, rfl, rfl⟩
  simp [AudioElement.load, AudioElement.setSrc, AudioElement.pause]

/-! ## Properties of the recorder's handles, ticker and audition -/

/-- C22, the code at the failing input: the `onstop` listener creates an object
URL for the take and stops every track of the stream once, and no handler of
the recorder ever revokes a URL: after a take is finished and deleted and the
component is unmounted, the take's URL is still live; after a second take both
URLs are live.  Each track of each stream has been stopped exactly once. -/
theorem take_url_never_revoked :
    (∀ s : AudioRecorder, s.deleteClick.urlCalls = s.urlCalls) ∧
    (∀ (s : AudioRecorder) (b : Bool), (s.effectCleanup b).urlCalls = s.urlCalls) ∧
    (∀ s : AudioRecorder, s.stopRecording.urlCalls = s.urlCalls) ∧
    (∀ (s : AudioRecorder) (mic : MicOutcome) (now : JSNum),
      (s.startRecording mic now).urlCalls = s.urlCalls) ∧
    (∀ (s : AudioRecorder) (r : Nat) (now : JSNum) (u : String),
      (s.onstop r now u).urlCalls = s.urlCalls ++ [.create u]) ∧
    AudioRecorder.finishedTake.urlCalls = [.create "blob:take"] ∧
    AudioRecorder.finishedTake.streams = [⟨[1]⟩] ∧
    liveUrls (AudioRecorder.finishedTake.deleteClick.effectCleanup false).urlCalls
      = ["blob:take"] ∧
    (AudioRecorder.finishedTake.deleteClick.effectCleanup false).streams = [⟨[1]⟩] ∧
    liveUrls ((((((AudioRecorder.finishedTake.deleteClick.startRecording (.granted 1)
      (.fin 5000)).effectCleanup false).stopRecording).effectCleanup true).onstop 1 (.fin 7000)
      "blob:take2").effectCleanup false).urlCalls = ["blob:take", "blob:take2"] ∧
    ((((((AudioRecorder.finishedTake.deleteClick.startRecording (.granted 1)
      (.fin 5000)).effectCleanup false).stopRecording).effectCleanup true).onstop 1 (.fin 7000)
      "blob:take2").effectCleanup false).streams = [⟨[1]⟩, ⟨[1]⟩] := by
  refine ⟨fun _ => rfl, fun _ _ => rfl, ?_, ?_, fun _ _ _ _ => rfl, rfl, rfl, by decide, rfl,
    by decide, rfl⟩
  · intro s
    unfold AudioRecorder.stopRecording
    cases s.mediaRecorderRef with
    | none => rfl
    | some r => cases s.isRecording <;> rfl
  · intro s mic now
    cases mic <;> rfl

/-- C23, the code at the failing input: a successful `startRecording` on a fresh
recorder leaves the session capturing with one active interval, whose callback
sets `recordingDuration` to `(now - start) / 1000`; the re-render that follows
(`isRecording` changed, so React runs the cleanup of the effect keyed on it)
clears that interval while `isRecording` stays true.  The same holds from any
state: after the start and the cleanup the active intervals are those before
the start, with the new one removed. -/
theorem ticker_cancelled_after_start :
    AudioRecorder.started.isRecording = true ∧
    AudioRecorder.started.timerRef = some 1 ∧
    AudioRecorder.started.activeTimers = [1] ∧
    (AudioRecorder.started.timerTick (.fin 1500)).recordingDuration = .fin (1 / 2) ∧
    (AudioRecorder.started.effectCleanup false).isRecording = true ∧
    (AudioRecorder.started.effectCleanup false).activeTimers = [] ∧
    (∀ (s : AudioRecorder) (tracks : Nat) (now : JSNum),
      ((s.startRecording (.granted tracks) now).effectCleanup false).isRecording = true ∧
      ((s.startRecording (.granted tracks) now).effectCleanup false).activeTimers
        = (s.activeTimers ++ [s.timersCreated + 1]).erase (s.timersCreated + 1)) := by
  refine ⟨rfl, rfl, rfl, ?_, rfl, by decide, fun s tracks now => ⟨rfl, ?_⟩⟩
  · simp only [AudioRecorder.timerTick, AudioRecorder.started, AudioRecorder.startRecording,
      AudioRecorder.startRecordingTry, AudioRecorder.init, Option.getD, JSNum.sub, JSNum.div]
    norm_num
  · simp [AudioRecorder.effectCleanup, AudioRecorder.startRecording,
      AudioRecorder.startRecordingTry, AudioRecorder.clearTimer]

/-- C25, the code at the failing input: in the recorder's audition channel a Play
click whose `play()` rejects logs the error and leaves the playing flag true
(the toggle sets it to the negation of its old value whatever the outcome);
without an audition element the toggle changes nothing. -/
theorem audition_play_failure_sets_flag :
    (∀ (s : AudioRecorder) (el : AudioElement),
      (({ s with audioRef := some el, isPlaying := false } : AudioRecorder).handlePlayPause
        false).isPlaying = true) ∧
    (∀ (s : AudioRecorder) (ok : Bool),
      ({ s with audioRef := none } : AudioRecorder).handlePlayPause ok
        = { s with audioRef := none }) ∧
    AudioRecorder.finishedTake.isPlaying = false ∧
    AudioRecorder.finishedTake.audioRef.map (fun e => e.src) = some "blob:take" ∧
    (AudioRecorder.finishedTake.handlePlayPause false).isPlaying = true ∧
    (AudioRecorder.finishedTake.handlePlayPause false).audioRef.map (fun e => e.paused)
      = some true ∧
    (AudioRecorder.finishedTake.handlePlayPause false).consoleErrors = ["Error playing audio:"] := by
  refine ⟨fun _ _ => rfl, fun _ _ => rfl, rfl, rfl, rfl, rfl, rfl⟩

/-! ## Properties of formatting -/

/-- The length of a padded string. -/
theorem padStart_length (s : String) (n : Nat) (c : Char) :
    (padStart s n c).length = (n - s.length) + s.length := by
  unfold padStart
  rw [String.length_append]
  show (List.replicate (n - s.length) c).length + s.length = _
  rw [List.length_replicate]

/-- A number below 60 is padded to exactly two characters. -/
theorem padStart_seconds_length (s : Nat) (hs : s ≤ 59) :
    (padStart (toString s) 2 '0').length = 2 := by
  interval_cases s <;> decide

/-- Integers from 0 up to `2^53` print in decimal. -/
theorem integerToString_small (n : Int) (h0 : 0 ≤ n) (h1 : n < 2 ^ 53) :
    integerToString n = toString n.toNat := by
  have h2 : n.toNat < 2 ^ 53 := by
    have : (n.toNat : Int) < 2 ^ 53 := by rw [Int.toNat_of_nonneg h0]; exact h1
    exact_mod_cast this
  unfold integerToString natToString
  rw [if_neg (not_lt.mpr h0), if_pos h2]

/-- Rounding to the nearest integer does not go below the integer part. -/
theorem le_roundHalfEven (y : ℚ) : ⌊y⌋ ≤ roundHalfEven y := by
  unfold roundHalfEven
  simp only
  split_ifs <;> omega

/-- Rounding a number that is more than one half below the integer `N` gives less
than `N`. -/
theorem roundHalfEven_le_pred (y : ℚ) (N : ℤ) (h : y < N - 1 / 2) : roundHalfEven y ≤ N - 1 := by
  have hf : ((⌊y⌋ : ℤ) : ℚ) ≤ y := Int.floor_le y
  unfold roundHalfEven
  simp only
  split_ifs with h1 h2 h3
  · have h4 : ((⌊y⌋ : ℤ) : ℚ) < (N : ℚ) := by linarith
    have h5 : ⌊y⌋ < N := by exact_mod_cast h4
    omega
  · have h4 : ((⌊y⌋ : ℤ) : ℚ) < ((N - 1 : ℤ) : ℚ) := by push_cast; linarith
    have h5 : ⌊y⌋ < N - 1 := by exact_mod_cast h4
    omega
  · have h4 : ((⌊y⌋ : ℤ) : ℚ) < (N : ℚ) := by linarith
    have h5 : ⌊y⌋ < N := by exact_mod_cast h4
    omega
  · have h4 : ((⌊y⌋ : ℤ) : ℚ) < ((N - 1 : ℤ) : ℚ) := by push_cast; linarith
    have h5 : ⌊y⌋ < N - 1 := by exact_mod_cast h4
    omega

/-- Rounding to a grid of step `u` with `1/u` an integer keeps the integer part,
provided the distance to the next integer is more than half a step. -/
theorem floor_round_grid (x u : ℚ) (Q : ℤ) (hQ : (Q : ℚ) * u = 1) (hu : 0 < u)
    (hgap : u / 2 < (⌊x⌋ : ℚ) + 1 - x) :
    ⌊(roundHalfEven (x / u) : ℚ) * u⌋ = ⌊x⌋ := by
  have hQpos : (0 : ℚ) < Q := by
    by_contra hc
    push_neg at hc
    have : (Q : ℚ) * u ≤ 0 := mul_nonpos_of_nonpos_of_nonneg hc hu.le
    linarith
  have hdiv : x / u = x * Q := by
    field_simp
    rw [mul_assoc, hQ, mul_one]
  have hKx : ((⌊x⌋ : ℤ) : ℚ) ≤ x := Int.floor_le x
  have hlow : ⌊x⌋ * Q ≤ roundHalfEven (x / u) := by
    refine le_trans ?_ (le_roundHalfEven _)
    rw [Int.le_floor, hdiv]
    push_cast
    exact mul_le_mul_of_nonneg_right hKx hQpos.le
  have hup : roundHalfEven (x / u) ≤ (⌊x⌋ + 1) * Q - 1 := by
    apply roundHalfEven_le_pred
    rw [hdiv]
    push_cast
    have h1 : u / 2 * Q < ((⌊x⌋ : ℚ) + 1 - x) * Q := mul_lt_mul_of_pos_right hgap hQpos
    have h2 : u / 2 * Q = 1 / 2 := by
      have : u / 2 * Q = (Q * u) / 2 := by ring
      rw [this, hQ]
    rw [h2] at h1
    linarith
  rw [Int.floor_eq_iff]
  constructor
  · have h1 : ((⌊x⌋ * Q : ℤ) : ℚ) ≤ (roundHalfEven (x / u) : ℚ) := by exact_mod_cast hlow
    have h2 : ((⌊x⌋ * Q : ℤ) : ℚ) * u ≤ (roundHalfEven (x / u) : ℚ) * u :=
      mul_le_mul_of_nonneg_right h1 hu.le
    have h3 : ((⌊x⌋ * Q : ℤ) : ℚ) * u = (⌊x⌋ : ℚ) := by
      push_cast
      rw [mul_assoc, hQ, mul_one]
    linarith
  · have h1 : (roundHalfEven (x / u) : ℚ) ≤ (((⌊x⌋ + 1) * Q - 1 : ℤ) : ℚ) := by exact_mod_cast hup
    have h2 : (roundHalfEven (x / u) : ℚ) * u ≤ (((⌊x⌋ + 1) * Q - 1 : ℤ) : ℚ) * u :=
      mul_le_mul_of_nonneg_right h1 hu.le
    have h3 : (((⌊x⌋ + 1) * Q - 1 : ℤ) : ℚ) * u = (⌊x⌋ : ℚ) + 1 - u := by
      push_cast
      have : (((⌊x⌋ : ℚ) + 1) * Q - 1) * u = ((⌊x⌋ : ℚ) + 1) * (Q * u) - u := by ring
      rw [this, hQ, mul_one]
    linarith

/-- The rounding step at a positive `x` below `2^48`: its inverse is an integer, it is at
most `1/32`, and it is at most `x / 2^52` unless `x` is below `1/2`. -/
theorem ulpAt_small (x : ℚ) (hx : 0 < x) (hlt : x < 2 ^ 48) :
    ∃ Q : ℤ, (Q : ℚ) * ulpAt x = 1 ∧ 0 < ulpAt x ∧ ulpAt x ≤ 1 / 32 ∧
      (ulpAt x ≤ x / 2 ^ 52 ∨ x < 1 / 2) := by
  have he1 : ((2 : ℕ) : ℚ) ^ Int.log 2 x ≤ x := Int.zpow_log_le_self (by norm_num) hx
  have he2 : x < ((2 : ℕ) : ℚ) ^ (Int.log 2 x + 1) := Int.lt_zpow_succ_log_self (by norm_num) x
  have he3 : Int.log 2 x < 48 := by
    rw [← Int.lt_zpow_iff_log_lt (by norm_num) hx]
    exact_mod_cast hlt
  rw [Nat.cast_ofNat] at he1 he2
  unfold ulpAt
  generalize Int.log 2 x = e at he1 he2 he3
  have hp : max (e - 52) (-1074) ≤ -5 := max_le (by omega) (by norm_num)
  have h2 : (2 : ℚ) ≠ 0 := two_ne_zero
  refine ⟨2 ^ (-(max (e - 52) (-1074))).toNat, ?_, zpow_pos (by norm_num) _, ?_, ?_⟩
  · push_cast
    rw [← zpow_natCast, ← zpow_add₀ h2, Int.toNat_of_nonneg (by omega), neg_add_cancel, zpow_zero]
  · have := zpow_le_zpow_right₀ (one_le_two : (1 : ℚ) ≤ 2) hp
    refine le_trans this ?_
    norm_num [zpow_neg]
  · by_cases hc : -1074 ≤ e - 52
    · left
      rw [max_eq_left hc, zpow_sub₀ h2]
      have h3 : ((2 : ℚ) ^ (52 : ℤ)) = 2 ^ 52 := by norm_cast
      rw [h3]
      exact div_le_div_of_nonneg_right he1 (by positivity)
    · right
      have h3 : e + 1 ≤ -1 := by omega
      have := zpow_le_zpow_right₀ (one_le_two : (1 : ℚ) ≤ 2) h3
      have h4 : (2 : ℚ) ^ (-1 : ℤ) = 1 / 2 := by norm_num [zpow_neg]
      rw [h4] at this
      linarith

/-- Division of a time below `2^53` by 60, rounded to a double, has the integer part of
the exact quotient. -/
theorem floor_roundToDouble_div_sixty (n j : ℕ) (hn : n < 2 ^ 53) :
    ⌊roundToDouble ((n : ℚ) / 2 ^ j / 60)⌋ = ⌊(n : ℚ) / 2 ^ j / 60⌋ := by
  by_cases h0 : n = 0
  · subst h0
    simp [roundToDouble]
  have hn0 : (0 : ℚ) < n := by exact_mod_cast Nat.pos_of_ne_zero h0
  have hj : (0 : ℚ) < 2 ^ j := by positivity
  have hj1 : (1 : ℚ) ≤ 2 ^ j := one_le_pow₀ (by norm_num)
  have hnq : (n : ℚ) < 2 ^ 53 := by exact_mod_cast hn
  set x : ℚ := (n : ℚ) / 2 ^ j / 60 with hxdef
  have hx : 0 < x := by positivity
  have hxn : x * (60 * 2 ^ j) = n := by
    rw [hxdef, div_div, div_mul_eq_mul_div, mul_comm (60 : ℚ), mul_div_assoc, div_self (by positivity), mul_one]
  have hlt : x < 2 ^ 48 := by
    have h1 : x * (60 * 2 ^ j) < 2 ^ 48 * (60 * 2 ^ j) := by
      rw [hxn]
      have : (2 : ℚ) ^ 53 ≤ 2 ^ 48 * (60 * 2 ^ j) := by nlinarith
      linarith
    exact lt_of_mul_lt_mul_right h1 (by positivity)
  obtain ⟨Q, hQ, hu, hu32, hcase⟩ := ulpAt_small x hx hlt
  have hround : roundToDouble x = (roundHalfEven (x / ulpAt x) : ℚ) * ulpAt x := by
    unfold roundToDouble
    rw [if_neg hx.ne', if_pos hx]
  rw [hround]
  apply floor_round_grid x (ulpAt x) Q hQ hu
  have hK0 : 0 ≤ ⌊x⌋ := Int.floor_nonneg.mpr hx.le
  have hKx : ((⌊x⌋ : ℤ) : ℚ) ≤ x := Int.floor_le x
  have hxK : x < ((⌊x⌋ : ℤ) : ℚ) + 1 := Int.lt_floor_add_one x
  rcases hcase with hulp | hhalf
  · -- the next multiple of 60 is at least one grid step of the time away
    have hint : (n : ℤ) + 1 ≤ (⌊x⌋ + 1) * (60 * 2 ^ j) := by
      have h1 : ((n : ℤ) : ℚ) < (((⌊x⌋ + 1) * (60 * 2 ^ j) : ℤ) : ℚ) := by
        push_cast
        rw [← hxn]
        exact mul_lt_mul_of_pos_right hxK (by positivity)
      have h2 : (n : ℤ) < (⌊x⌋ + 1) * (60 * 2 ^ j) := by exact_mod_cast h1
      omega
    have hq : ((n : ℚ) + 1) ≤ ((⌊x⌋ : ℚ) + 1) * (60 * 2 ^ j) := by exact_mod_cast hint
    have hgap : 1 / (60 * 2 ^ j) ≤ (⌊x⌋ : ℚ) + 1 - x := by
      rw [div_le_iff₀ (by positivity)]
      have : ((⌊x⌋ : ℚ) + 1 - x) * (60 * 2 ^ j) = ((⌊x⌋ : ℚ) + 1) * (60 * 2 ^ j) - n := by
        rw [sub_mul, hxn]
      rw [this]
      linarith
    have hsmall : x / 2 ^ 52 / 2 < 1 / (60 * 2 ^ j) := by
      rw [lt_div_iff₀ (by positivity)]
      have : x / 2 ^ 52 / 2 * (60 * 2 ^ j) = x * (60 * 2 ^ j) / 2 ^ 53 := by ring
      rw [this, hxn, div_lt_one (by positivity)]
      exact hnq
    linarith
  · have hK : ⌊x⌋ = 0 := by
      rw [Int.floor_eq_iff]
      constructor <;> norm_num <;> linarith
    rw [hK]
    push_cast
    linarith

/-- C26 fails as stated: the time `t = 72057594037928096 = 4503599627370506 · 2^4`
is a double.  The exact quotient `t / 60 = 1200959900632134.93…` lies between
two doubles a quarter apart and is rounded up to `1200959900632135`, so
`formatTime` returns `1200959900632135:56`, and `60 · 1200959900632135 + 56`
is `⌊t⌋ + 60`: the output is not the `MM:SS` of any minutes and seconds with
`60 · MM + SS = ⌊t⌋`. -/
theorem formatTime_rounds_minutes_up :
    (72057594037928096 : ℚ) = 4503599627370506 * 2 ^ 4 ∧
    (4503599627370506 : Nat) < 2 ^ 53 ∧
    formatTime (.fin 72057594037928096) = "1200959900632135:56" ∧
    (60 * 1200959900632135 + 56 : Int) = ⌊(72057594037928096 : ℚ)⌋ + 60 ∧
    ¬ ∃ m s : Nat, s ≤ 59 ∧ ((60 * m + s : Nat) : Int) = ⌊(72057594037928096 : ℚ)⌋ ∧
      formatTime (.fin 72057594037928096) =
        padStart (toString m) 2 '0' ++ ":" ++ padStart (toString s) 2 '0' := by
  have hfl : ⌊(72057594037928096 : ℚ)⌋ = 72057594037928096 := by
    have : (72057594037928096 : ℚ) = ((72057594037928096 : ℤ) : ℚ) := by norm_num
    rw [this, Int.floor_intCast]
  have hx : (0 : ℚ) < 72057594037928096 / 60 := by norm_num
  have hlog : Int.log 2 ((72057594037928096 : ℚ) / 60) = 50 := by
    apply le_antisymm
    · have h1 : Int.log 2 ((72057594037928096 : ℚ) / 60) < 51 := by
        rw [← Int.lt_zpow_iff_log_lt (by norm_num) hx]
        norm_num
      omega
    · rw [← Int.zpow_le_iff_le_log (by norm_num) hx]
      norm_num
  have hulp : ulpAt ((72057594037928096 : ℚ) / 60) = 1 / 4 := by
    unfold ulpAt
    rw [hlog]
    norm_num [zpow_neg]
  have hfloor : ⌊(72057594037928096 : ℚ) / 60 / (1 / 4)⌋ = 4803839602528539 := by
    rw [Int.floor_eq_iff]
    constructor <;> norm_num
  have hround : roundHalfEven ((72057594037928096 : ℚ) / 60 / (1 / 4)) = 4803839602528540 := by
    unfold roundHalfEven
    simp only [hfloor]
    rw [if_neg (by norm_num), if_pos (by norm_num)]
    norm_num
  have hdouble : roundToDouble ((72057594037928096 : ℚ) / 60) = ((1200959900632135 : ℤ) : ℚ) := by
    unfold roundToDouble
    rw [if_neg hx.ne', if_pos hx, hulp, hround]
    norm_num
  have hmin : ⌊roundToDouble ((72057594037928096 : ℚ) / 60)⌋ = 1200959900632135 := by
    rw [hdouble, Int.floor_intCast]
  have hq : ⌊(72057594037928096 : ℚ) / 60⌋ = 1200959900632134 := by
    rw [Int.floor_eq_iff]
    constructor <;> norm_num
  have hrem : jsRem 72057594037928096 60 = ((56 : ℤ) : ℚ) := by
    unfold jsRem
    rw [if_pos hx.le, hq]
    norm_num
  have hsec : ⌊jsRem 72057594037928096 60⌋ = 56 := by rw [hrem, Int.floor_intCast]
  have hout : formatTime (.fin 72057594037928096) = "1200959900632135:56" := by
    simp only [formatTime, JSNum.isNaN, JSNum.isFinite, hmin, hsec]
    decide
  refine ⟨by norm_num, by norm_num, hout, ?_, ?_⟩
  · rw [hfl]; norm_num
  · rintro ⟨m, s, hs, hsum, heq⟩
    rw [hfl] at hsum
    have hm : m = 1200959900632134 := by omega
    have hs2 : s = 56 := by omega
    subst hm hs2
    rw [hout] at heq
    revert heq
    decide

/-- C26, amended: `formatTime` returns `00:00` for `NaN` and for both
infinities, and for every double `t` with `0 ≤ t < 2^53`, that is every
`t = n / 2^j` with `n < 2^53`, it returns `MM:SS`, where `MM` is the decimal
minutes `m = ⌊t / 60⌋` padded on the left with zeros to at least two
characters, `SS` is the decimal seconds `s ≤ 59` padded to exactly two
characters, and `60 * m + s = ⌊t⌋`. -/
theorem formatTime_minutes_seconds (n j : Nat) (hn : n < 2 ^ 53) :
    formatTime .nan = "00:00" ∧ formatTime .posInf = "00:00" ∧ formatTime .negInf = "00:00" ∧
    ∃ m s : Nat,
      (m : Int) = ⌊(n : ℚ) / 2 ^ j / 60⌋ ∧ s ≤ 59 ∧ ((60 * m + s : Nat) : Int) = ⌊(n : ℚ) / 2 ^ j⌋ ∧
      formatTime (.fin ((n : ℚ) / 2 ^ j)) =
        padStart (toString m) 2 '0' ++ ":" ++ padStart (toString s) 2 '0' ∧
      2 ≤ (padStart (toString m) 2 '0').length ∧
      (padStart (toString s) 2 '0').length = 2 := by
  refine ⟨rfl, rfl, rfl, ?_⟩
  have hmin := floor_roundToDouble_div_sixty n j hn
  generalize htdef : (n : ℚ) / 2 ^ j = t at hmin
  have ht : 0 ≤ t := by rw [← htdef]; positivity
  have hbig : t < 2 ^ 53 := by
    rw [← htdef, div_lt_iff₀ (by positivity)]
    have h1 : (n : ℚ) < 2 ^ 53 := by exact_mod_cast hn
    have h2 : (1 : ℚ) ≤ 2 ^ j := one_le_pow₀ (by norm_num)
    nlinarith
  have hq0 : 0 ≤ ⌊t / 60⌋ := Int.floor_nonneg.mpr (div_nonneg ht (by norm_num))
  have hq1 : ⌊t / 60⌋ < 2 ^ 53 := by
    rw [Int.floor_lt]
    have : t / 60 < 2 ^ 53 := by linarith
    exact_mod_cast this
  have hle : ((⌊t / 60⌋ : Int) : ℚ) ≤ t / 60 := Int.floor_le _
  have hlt : t / 60 < ((⌊t / 60⌋ : Int) : ℚ) + 1 := Int.lt_floor_add_one _
  have hlo : 60 * ⌊t / 60⌋ ≤ ⌊t⌋ := by
    rw [Int.le_floor]; push_cast; linarith
  have hhi : ⌊t⌋ < 60 * ⌊t / 60⌋ + 60 := by
    rw [Int.floor_lt]; push_cast; linarith
  have hrem : jsRem t 60 = t - ((60 * ⌊t / 60⌋ : Int) : ℚ) := by
    unfold jsRem
    rw [if_pos (div_nonneg ht (by norm_num))]
    push_cast; ring
  have hsec : ⌊jsRem t 60⌋ = ⌊t⌋ - 60 * ⌊t / 60⌋ := by
    rw [hrem, Int.floor_sub_int]
  have hs0 : 0 ≤ ⌊t⌋ - 60 * ⌊t / 60⌋ := by omega
  have hs1 : ⌊t⌋ - 60 * ⌊t / 60⌋ < 2 ^ 53 := by
    have : ⌊t⌋ - 60 * ⌊t / 60⌋ < 60 := by omega
    exact lt_trans this (by norm_num)
  refine ⟨⌊t / 60⌋.toNat, (⌊t⌋ - 60 * ⌊t / 60⌋).toNat, Int.toNat_of_nonneg hq0, by omega,
    by omega, ?_, ?_, ?_⟩
  · simp only [formatTime, JSNum.isNaN, JSNum.isFinite, hsec, hmin,
      integerToString_small _ hq0 hq1, integerToString_small _ hs0 hs1]
    rfl
  · rw [padStart_length]; omega
  · exact padStart_seconds_length _ (by omega)

/-- Witness for C26 (amended): 125.5 seconds, the double `251 / 2^1`, is shown with
minutes 2 and seconds 5. -/
theorem formatTime_minutes_seconds_witness :
    (251 : Nat) < 2 ^ 53 ∧
    ∃ m s : Nat, (m : Int) = ⌊((251 : Nat) : ℚ) / 2 ^ 1 / 60⌋ ∧ s ≤ 59 ∧
      ((60 * m + s : Nat) : Int) = ⌊((251 : Nat) : ℚ) / 2 ^ 1⌋ ∧
      formatTime (.fin (((251 : Nat) : ℚ) / 2 ^ 1)) =
        padStart (toString m) 2 '0' ++ ":" ++ padStart (toString s) 2 '0' ∧
      2 ≤ (padStart (toString m) 2 '0').length ∧
      (padStart (toString s) 2 '0').length = 2 :=
  ⟨by norm_num, (formatTime_minutes_seconds 251 1 (by norm_num)).2.2.2⟩

/-- The digits of a string are digits, so keeping digits again changes nothing
and the three blocks of a phone number are the whole list. -/
theorem digits_of_blocks (d : List Char) (hd : ∀ c ∈ d, c.isDigit = true) :
    (d.take 3 ++ ['-'] ++ (d.drop 3).take 3 ++ ['-'] ++ d.drop 6).filter Char.isDigit = d := by
  have h1 : (d.take 3).filter Char.isDigit = d.take 3 :=
    List.filter_eq_self.mpr (fun c hc => hd c (List.mem_of_mem_take hc))
  have h2 : ((d.drop 3).take 3).filter Char.isDigit = (d.drop 3).take 3 :=
    List.filter_eq_self.mpr
      (fun c hc => hd c (List.mem_of_mem_drop (List.mem_of_mem_take hc)))
  have h3 : (d.drop 6).filter Char.isDigit = d.drop 6 :=
    List.filter_eq_self.mpr (fun c hc => hd c (List.mem_of_mem_drop hc))
  have h4 : (['-'] : List Char).filter Char.isDigit = [] := by decide
  rw [List.filter_append, List.filter_append, List.filter_append, List.filter_append,
    h1, h2, h3, h4, List.append_nil, List.append_nil]
  have h5 : (d.drop 3).take 3 ++ d.drop 6 = d.drop 3 := by
    have : d.drop 6 = (d.drop 3).drop 3 := by rw [List.drop_drop]
    rw [this, List.take_append_drop]
  rw [List.append_assoc, h5, List.take_append_drop]

/-- C27: `formatEntityValue` returns `entity.word` as it is unless the type is
`PHONE-NO` and the word has exactly 10 decimal digits; in that case it returns
those digits in their order as three blocks of 3, 3 and 4 separated by `-`, 12
characters in all.  In every case the decimal digits of the result are the
decimal digits of the word, in the same order. -/
theorem formatEntityValue_keeps_digits (e : Entity) :
    (e.entity_type ≠ "PHONE-NO" ∨ (digitsOf e.word).length ≠ 10 →
      formatEntityValue e = e.word) ∧
    (e.entity_type = "PHONE-NO" → (digitsOf e.word).length = 10 →
      formatEntityValue e =
        String.mk ((digitsOf e.word).take 3 ++ ['-'] ++ ((digitsOf e.word).drop 3).take 3
          ++ ['-'] ++ (digitsOf e.word).drop 6) ∧
      (formatEntityValue e).length = 12) ∧
    digitsOf (formatEntityValue e) = digitsOf e.word := by
  have hd : ∀ c ∈ digitsOf e.word, c.isDigit = true := fun c hc => (List.mem_filter.mp hc).2
  refine ⟨?_, ?_, ?_⟩
  · intro h
    unfold formatEntityValue
    rcases h with h | h
    · simp [h]
    · simp [h]
  · intro h1 h2
    have h3 : formatEntityValue e =
        String.mk ((digitsOf e.word).take 3 ++ ['-'] ++ ((digitsOf e.word).drop 3).take 3
          ++ ['-'] ++ (digitsOf e.word).drop 6) := by
      unfold formatEntityValue
      simp [h1, h2]
    refine ⟨h3, ?_⟩
    rw [h3]
    show (_ : List Char).length = 12
    simp only [List.length_append, List.length_take, List.length_drop, h2, List.length_cons,
      List.length_nil]
    rfl
  · by_cases h1 : e.entity_type = "PHONE-NO"
    · by_cases h2 : (digitsOf e.word).length = 10
      · have h3 : formatEntityValue e =
            String.mk ((digitsOf e.word).take 3 ++ ['-'] ++ ((digitsOf e.word).drop 3).take 3
              ++ ['-'] ++ (digitsOf e.word).drop 6) := by
          unfold formatEntityValue
          simp [h1, h2]
        rw [h3]
        exact digits_of_blocks _ hd
      · have : formatEntityValue e = e.word := by
          unfold formatEntityValue
          simp [h1, h2]
        rw [this]
    · have : formatEntityValue e = e.word := by
        unfold formatEntityValue
        simp [h1]
      rw [this]

/-- Witness for C27: a phone number written with brackets, spaces and a dash, and
a name. -/
theorem formatEntityValue_keeps_digits_witness :
    formatEntityValue ⟨"PHONE-NO", "(555) 123-4567"⟩ = "555-123-4567" ∧
    (formatEntityValue ⟨"PHONE-NO", "(555) 123-4567"⟩).length = 12 ∧
    formatEntityValue ⟨"NAME", "Ada 1815"⟩ = "Ada 1815" := by
  have h1 := (formatEntityValue_keeps_digits ⟨"PHONE-NO", "(555) 123-4567"⟩).2.1
    (by decide) (by decide)
  have h2 := (formatEntityValue_keeps_digits ⟨"NAME", "Ada 1815"⟩).1 (Or.inl (by decide))
  exact ⟨by rw [h1.1]; decide, h1.2, h2⟩

/-- C29: whatever the state, `handleSubmit` submits `['detection']` or
`['detection', 'redaction']`, so the list always contains `detection`; right
after initialisation (selection not changed) it contains `redaction` exactly
when `initialCapabilities` did; and initialising again from the submitted list
and submitting gives the same list. -/
theorem handleSubmit_normalises (s : SettingsPage) (initialModel : String)
    (initialCapabilities : List String) :
    (s.handleSubmit.2 = ["detection"] ∨ s.handleSubmit.2 = ["detection", "redaction"]) ∧
    "detection" ∈ s.handleSubmit.2 ∧
    s.handleSubmit.1 = s.selectedModel ∧
    ("redaction" ∈ (SettingsPage.init initialModel initialCapabilities).handleSubmit.2 ↔
      "redaction" ∈ initialCapabilities) ∧
    (SettingsPage.init initialModel
        (SettingsPage.init initialModel initialCapabilities).handleSubmit.2).handleSubmit.2
      = (SettingsPage.init initialModel initialCapabilities).handleSubmit.2 := by
  refine ⟨?_, ?_, rfl, ?_, ?_⟩
  · unfold SettingsPage.handleSubmit
    by_cases h : s.selectedCapability = "redaction" <;> simp [h]
  · unfold SettingsPage.handleSubmit
    by_cases h : s.selectedCapability = "redaction" <;> simp [h]
  · unfold SettingsPage.handleSubmit SettingsPage.init
    by_cases h : "redaction" ∈ initialCapabilities <;> simp [h]
  · unfold SettingsPage.handleSubmit SettingsPage.init
    by_cases h : "redaction" ∈ initialCapabilities <;> simp [h]

/-- Upper-casing or lower-casing a character other than `_` does not give `_`. -/
theorem case_ne_underscore (c : Char) (hc : c ≠ '_') : c.toUpper ≠ '_' ∧ c.toLower ≠ '_' := by
  constructor
  · unfold Char.toUpper
    simp only
    split
    · rename_i h
      obtain ⟨h1, h2⟩ := h
      generalize c.toNat = n at h1 h2
      interval_cases n <;> decide
    · exact hc
  · unfold Char.toLower
    simp only
    split
    · rename_i h
      obtain ⟨h1, h2⟩ := h
      generalize c.toNat = n at h1 h2
      interval_cases n <;> decide
    · exact hc

/-- Joining with a space when the first piece has a first character. -/
theorem intercalate_space_cons (c : Char) (w : List Char) (ws : List (List Char)) :
    List.intercalate [' '] ((c :: w) :: ws) = c :: List.intercalate [' '] (w :: ws) := by
  cases ws <;> simp [List.intercalate]

/-- Joining with a space when the first piece is empty and another follows. -/
theorem intercalate_space_nil (w : List Char) (ws : List (List Char)) :
    List.intercalate [' '] ([] :: w :: ws) = ' ' :: List.intercalate [' '] (w :: ws) := by
  cases ws <;> simp [List.intercalate]

/-- Splitting, capitalising each piece and joining, read character by character. -/
theorem split_capitalize_join (l : List Char) :
    ∃ (w : List Char) (ws : List (List Char)), splitUnderscore l = w :: ws ∧
      List.intercalate [' '] (capitalizeWord w :: ws.map capitalizeWord)
        = capitalizeChars true l ∧
      List.intercalate [' '] (w.map Char.toLower :: ws.map capitalizeWord)
        = capitalizeChars false l := by
  induction l with
  | nil => exact ⟨[], [], rfl, rfl, rfl⟩
  | cons c cs ih =>
    obtain ⟨w, ws, h1, h2, h3⟩ := ih
    by_cases hc : c = '_'
    · refine ⟨[], w :: ws, ?_, ?_, ?_⟩
      · simp [splitUnderscore, hc, h1]
      · show List.intercalate [' '] ([] :: capitalizeWord w :: ws.map capitalizeWord) = _
        rw [intercalate_space_nil, h2]
        simp [capitalizeChars, hc]
      · show List.intercalate [' '] ([] :: capitalizeWord w :: ws.map capitalizeWord) = _
        rw [intercalate_space_nil, h2]
        simp [capitalizeChars, hc]
    · refine ⟨c :: w, ws, ?_, ?_, ?_⟩
      · simp [splitUnderscore, hc, h1]
      · show List.intercalate [' '] ((c.toUpper :: w.map Char.toLower) :: ws.map capitalizeWord)
          = _
        rw [intercalate_space_cons, h3]
        simp [capitalizeChars, hc]
      · show List.intercalate [' '] ((c.toLower :: w.map Char.toLower) :: ws.map capitalizeWord)
          = _
        rw [intercalate_space_cons, h3]
        simp [capitalizeChars, hc]

/-- The character-by-character reading keeps the length. -/
theorem capitalizeChars_length (b : Bool) (l : List Char) :
    (capitalizeChars b l).length = l.length := by
  induction l generalizing b with
  | nil => rfl
  | cons c cs ih =>
    by_cases hc : c = '_'
    · simp [capitalizeChars, hc, ih]
    · simp [capitalizeChars, hc, ih]

/-- The character-by-character reading leaves no underscore. -/
theorem capitalizeChars_no_underscore (b : Bool) (l : List Char) :
    '_' ∉ capitalizeChars b l := by
  induction l generalizing b with
  | nil => simp [capitalizeChars]
  | cons c cs ih =>
    by_cases hc : c = '_'
    · simp only [capitalizeChars, hc, if_true, List.mem_cons, not_or]
      exact ⟨by decide, ih true⟩
    · simp only [capitalizeChars, hc, if_false, List.mem_cons, not_or]
      refine ⟨?_, ih false⟩
      cases b
      · exact fun h => (case_ne_underscore c hc).2 h.symm
      · exact fun h => (case_ne_underscore c hc).1 h.symm

/-- C30: for an ASCII entity type, `formatEntityType` is the string read
character by character with every `_` replaced by one space, the first
character of each underscore-separated word upper-cased and its other
characters lower-cased; the result has the length of the input and no
underscore, and `CREDIT_CARD_NO` gives `Credit Card No`. -/
theorem formatEntityType_capitalizes (type : String)
    (_hascii : ∀ c ∈ type.toList, c.toNat < 128) :
    (formatEntityType type).toList = capitalizeChars true type.toList ∧
    (formatEntityType type).length = type.length ∧
    '_' ∉ (formatEntityType type).toList ∧
    formatEntityType "CREDIT_CARD_NO" = "Credit Card No" := by
  have h : (formatEntityType type).toList = capitalizeChars true type.toList := by
    obtain ⟨w, ws, h1, h2, _⟩ := split_capitalize_join type.toList
    show List.intercalate [' '] ((splitUnderscore type.toList).map capitalizeWord) = _
    rw [h1, List.map_cons, h2]
  refine ⟨h, ?_, ?_, by decide⟩
  · show (formatEntityType type).toList.length = type.toList.length
    rw [h, capitalizeChars_length]
  · rw [h]; exact capitalizeChars_no_underscore true _

/-- Witness for C30: the type `PHONE_no`. -/
theorem formatEntityType_capitalizes_witness :
    (formatEntityType "PHONE_no").toList = capitalizeChars true "PHONE_no".toList ∧
    (formatEntityType "PHONE_no").length = "PHONE_no".length ∧
    formatEntityType "PHONE_no" = "Phone No" :=
  ⟨(formatEntityType_capitalizes "PHONE_no" (by decide)).1,
   (formatEntityType_capitalizes "PHONE_no" (by decide)).2.1, by decide⟩

/-! ## Properties of entity grouping -/

/-- Pushing onto the one group with a given key adds one to the total size. -/
theorem sum_after_push (type : String) (entity : Entity) (acc : EntityGroups)
    (hn : (acc.map Prod.fst).Nodup) (hk : ∃ g ∈ acc, g.1 = type) :
    ((acc.map (fun g => if g.1 == type then (g.1, g.2 ++ [entity]) else g)).map
      (fun g => g.2.length)).sum = (acc.map (fun g => g.2.length)).sum + 1 := by
  induction acc with
  | nil => obtain ⟨g, hg, _⟩ := hk; cases hg
  | cons a rest ih =>
    rw [List.map_cons, List.nodup_cons] at hn
    by_cases ha : a.1 = type
    · have hrest : rest.map (fun g => if g.1 == type then (g.1, g.2 ++ [entity]) else g)
          = rest := by
        conv_rhs => rw [← List.map_id rest]
        apply List.map_congr_left
        intro g hg
        have : g.1 ≠ type := by
          intro h
          apply hn.1
          rw [ha, ← h]
          exact List.mem_map_of_mem Prod.fst hg
        simp [this]
      simp only [List.map_cons, List.sum_cons, hrest, ha, beq_self_eq_true, if_true,
        List.length_append, List.length_cons, List.length_nil]
      omega
    · have hk2 : ∃ g ∈ rest, g.1 = type := by
        obtain ⟨g, hg, hgt⟩ := hk
        rcases List.mem_cons.mp hg with h | h
        · exact absurd (h ▸ hgt) ha
        · exact ⟨g, h, hgt⟩
      have := ih hn.2 hk2
      simp only [List.map_cons, List.sum_cons, this]
      simp [ha]
      omega

/-- One step of the reducer keeps the grouping, for a type that is not an
inherited property name. -/
theorem groupStep_groups (p : List Entity) (acc : EntityGroups) (entity : Entity)
    (h : GroupsOf p acc) (hp : entity.entity_type ∉ objectPrototypeKeys) :
    ∃ acc2, groupStep acc entity = some acc2 ∧ GroupsOf (p ++ [entity]) acc2 := by
  obtain ⟨hn, hg, hc, hs⟩ := h
  by_cases hk : ∃ g ∈ acc, g.1 = entity.entity_type
  · have hany : acc.any (fun g => g.1 == entity.entity_type) = true := by
      obtain ⟨g, hg1, hg2⟩ := hk
      exact List.any_eq_true.mpr ⟨g, hg1, by simp [hg2]⟩
    refine ⟨acc.map (fun g =>
        if g.1 == entity.entity_type then (g.1, g.2 ++ [entity]) else g),
      by simp only [groupStep, hany, if_true], ?_, ?_, ?_, ?_⟩
    · have : (acc.map (fun g =>
          if g.1 == entity.entity_type then (g.1, g.2 ++ [entity]) else g)).map Prod.fst
          = acc.map Prod.fst := by
        rw [List.map_map]
        apply List.map_congr_left
        intro g _
        by_cases h : g.1 = entity.entity_type <;> simp [h]
      rw [this]; exact hn
    · intro k grp hmem
      obtain ⟨⟨gk, gg⟩, hg1, hg2⟩ := List.mem_map.mp hmem
      have hgg := hg gk gg hg1
      by_cases h : gk = entity.entity_type
      · simp only [h, beq_self_eq_true, if_true, Prod.mk.injEq] at hg2
        obtain ⟨e1, e2⟩ := hg2
        rw [h] at hgg
        rw [← e2, ← e1, List.filter_append, ← hgg.1]
        simp
      · have hne : (gk == entity.entity_type) = false := by simp [h]
        simp only [hne, Bool.false_eq_true, if_false, Prod.mk.injEq] at hg2
        obtain ⟨e1, e2⟩ := hg2
        rw [← e2, ← e1, List.filter_append, ← hgg.1]
        have : (entity.entity_type == gk) = false := by
          simp; exact fun e => h e.symm
        simp [this, hgg.2]
    · intro e he
      rcases List.mem_append.mp he with h | h
      · obtain ⟨grp, hgrp⟩ := hc e h
        by_cases ht : e.entity_type = entity.entity_type
        · exact ⟨grp ++ [entity], List.mem_map.mpr ⟨(e.entity_type, grp), hgrp, by simp [ht]⟩⟩
        · exact ⟨grp, List.mem_map.mpr ⟨(e.entity_type, grp), hgrp, by simp [ht]⟩⟩
      · have : e = entity := by simpa using h
        subst this
        obtain ⟨g, hg1, hg2⟩ := hk
        exact ⟨g.2 ++ [e], List.mem_map.mpr ⟨g, hg1, by simp [hg2]⟩⟩
    · rw [sum_after_push _ _ _ hn hk, hs]; simp
  · have hany : acc.any (fun g => g.1 == entity.entity_type) = false := by
      rw [Bool.eq_false_iff]
      intro h
      obtain ⟨g, hg1, hg2⟩ := List.any_eq_true.mp h
      exact hk ⟨g, hg1, by simpa using hg2⟩
    have hcont : objectPrototypeKeys.contains entity.entity_type = false := by
      rw [Bool.eq_false_iff]
      intro h
      exact hp (List.elem_iff.mp h)
    have hnone : ∀ e ∈ p, e.entity_type ≠ entity.entity_type := by
      intro e he ht
      obtain ⟨grp, hgrp⟩ := hc e he
      exact hk ⟨_, hgrp, ht⟩
    refine ⟨acc ++ [(entity.entity_type, [entity])], ?_, ?_, ?_, ?_, ?_⟩
    · simp only [groupStep, hany, hcont, Bool.false_eq_true, if_false]
    · rw [List.map_append, List.nodup_append]
      refine ⟨hn, by simp, ?_⟩
      intro a ha hb
      have : a = entity.entity_type := by simpa using hb
      subst this
      obtain ⟨g, hg1, hg2⟩ := List.mem_map.mp ha
      exact hk ⟨g, hg1, hg2⟩
    · intro k grp hmem
      rcases List.mem_append.mp hmem with h | h
      · have := hg k grp h
        refine ⟨?_, this.2⟩
        rw [List.filter_append, ← this.1]
        have hne : (entity.entity_type == k) = false := by
          simp; exact fun e => hk ⟨_, h, e.symm⟩
        simp [hne]
      · have : k = entity.entity_type ∧ grp = [entity] := by simpa using h
        obtain ⟨e1, e2⟩ := this
        subst e1 e2
        refine ⟨?_, by simp⟩
        rw [List.filter_append]
        have : p.filter (fun e => e.entity_type == entity.entity_type) = [] := by
          rw [List.filter_eq_nil_iff]
          intro e he
          simpa using hnone e he
        simp [this]
    · intro e he
      rcases List.mem_append.mp he with h | h
      · obtain ⟨grp, hgrp⟩ := hc e h
        exact ⟨grp, List.mem_append_left _ hgrp⟩
      · have : e = entity := by simpa using h
        subst this
        exact ⟨[e], List.mem_append_right _ (by simp)⟩
    · simp [hs]

/-- The reducer run over a list keeps the grouping. -/
theorem foldlM_groupStep_groups (rest p : List Entity) (acc : EntityGroups)
    (h : GroupsOf p acc) (hp : ∀ e ∈ rest, e.entity_type ∉ objectPrototypeKeys) :
    ∃ g, rest.foldlM groupStep acc = some g ∧ GroupsOf (p ++ rest) g := by
  induction rest generalizing p acc with
  | nil => exact ⟨acc, rfl, by simpa using h⟩
  | cons e es ih =>
    obtain ⟨acc2, h1, h2⟩ := groupStep_groups p acc e h (hp e (List.mem_cons_self _ _))
    obtain ⟨g, h3, h4⟩ := ih (p ++ [e]) acc2 h2 (fun x hx => hp x (List.mem_cons_of_mem _ hx))
    refine ⟨g, ?_, by simpa using h4⟩
    rw [List.foldlM_cons, h1]
    exact h3

/-- C28 fails as stated: for an entity whose type is `constructor`, the name of
a property every object inherits, `acc[type]` is found and is not an array, so
`push` throws and there is no grouping at all; the same happens when such an
entity follows ordinary ones. -/
theorem groupedEntities_inherited_key_throws :
    groupedEntities (some [⟨"constructor", "x"⟩]) = none ∧
    groupedEntities (some [⟨"NAME", "Ada"⟩, ⟨"toString", "x"⟩, ⟨"NAME", "Bob"⟩]) = none := by
  decide

/-- C28, amended: for every list of entities none of whose types is the name of
a property inherited from `Object.prototype`, `groupedEntities` is a partition
of the list by type: the keys are distinct; the group under a key is not empty
and is exactly the entities of that type in their order in the list; every
entity is in the group of its own type and in no group of another key; and the
group sizes add up to the length of the list.  Without an entity list the
grouping is empty. -/
theorem groupedEntities_partitions (es : List Entity)
    (hp : ∀ e ∈ es, e.entity_type ∉ objectPrototypeKeys) :
    groupedEntities none = some [] ∧
    ∃ g, groupedEntities (some es) = some g ∧
      (g.map Prod.fst).Nodup ∧
      (∀ k grp, (k, grp) ∈ g →
        grp = es.filter (fun e => e.entity_type == k) ∧ grp ≠ [] ∧ grp.Sublist es) ∧
      (∀ e ∈ es, ∃ grp, (e.entity_type, grp) ∈ g ∧ e ∈ grp ∧
        ∀ k grp2, (k, grp2) ∈ g → e ∈ grp2 → k = e.entity_type) ∧
      (g.map (fun x => x.2.length)).sum = es.length := by
  refine ⟨rfl, ?_⟩
  have h0 : GroupsOf [] [] := ⟨List.nodup_nil, by simp, by simp, rfl⟩
  obtain ⟨g, h1, hn, hg, hc, hs⟩ := foldlM_groupStep_groups es [] [] h0 hp
  rw [List.nil_append] at hg hc hs
  refine ⟨g, h1, hn, ?_, ?_, hs⟩
  · intro k grp hmem
    have := hg k grp hmem
    refine ⟨this.1, this.2, ?_⟩
    rw [this.1]
    exact List.filter_sublist _
  · intro e he
    obtain ⟨grp, hgrp⟩ := hc e he
    refine ⟨grp, hgrp, ?_, ?_⟩
    · rw [(hg _ _ hgrp).1]
      exact List.mem_filter.mpr ⟨he, by simp⟩
    · intro k grp2 hmem he2
      rw [(hg _ _ hmem).1] at he2
      have := (List.mem_filter.mp he2).2
      exact (by simpa using this : e.entity_type = k).symm

/-- Witness for C28 (amended): three entities of two types. -/
theorem groupedEntities_partitions_witness :
    ∃ g, groupedEntities (some [⟨"NAME", "Ada"⟩, ⟨"PHONE-NO", "555"⟩, ⟨"NAME", "Bob"⟩]) = some g ∧
      (g.map (fun x => x.2.length)).sum = 3 := by
  obtain ⟨g, h1, _, _, _, h2⟩ :=
    (groupedEntities_partitions [⟨"NAME", "Ada"⟩, ⟨"PHONE-NO", "555"⟩, ⟨"NAME", "Bob"⟩]
      (by decide)).2
  exact ⟨g, h1, h2⟩

end PIIAudio
